import Mathlib

/-!
# PipeCD configuration and project model

A shallow embedding of `pkg/config/app.go` (stage configuration and its JSON
decoder) and `pkg/model/project.go` (project users and single sign-on), with the
properties of the specification proved about them.

Go's `encoding/json` is a library the decoder calls; its decoding rules are
modelled over JSON values (`Json`): the text handed to `json.Unmarshal` is
represented by the value it denotes.
-/

namespace config

/-! ## JSON values and Go errors -/

/-- A JSON value. A number literal is kept as `num n` when it is an integer
literal and as `frac text` when it has a fraction or an exponent; an object keeps
its members in document order, repeated names included. -/
inductive Json where
  | null
  | bool (b : Bool)
  | num (n : Int)
  | frac (text : String)
  | str (s : String)
  | arr (items : List Json)
  | obj (members : List (String × Json))
deriving Inhabited

/-- The kind of a JSON value as `json.UnmarshalTypeError.Value` names it. -/
def Json.kind : Json → String
  | .null => "null"
  | .bool _ => "bool"
  | .num _ => "number"
  | .frac _ => "number"
  | .str _ => "string"
  | .arr _ => "array"
  | .obj _ => "object"

/-- A Go `error` value: `errorf` is an error built by `fmt.Errorf` with the
formatted message, `unmarshalType` a `*json.UnmarshalTypeError` (the JSON kind and
the Go type it did not fit), `method` an error returned by a type's own
`UnmarshalJSON` method. A nil `error` is `none : Option Error`. -/
inductive Error where
  | errorf (msg : String)
  | unmarshalType (value : String) (goType : String)
  | method (msg : String)
deriving DecidableEq, Repr, Inhabited

/-- The state of one `json.Unmarshal` run on a Go value: the value as decoded so
far, the first type mismatch that was saved while decoding went on
(`decodeState.savedError`), and the error that stopped the run (an error returned
by an `UnmarshalJSON` method), if any. -/
structure Dec (α : Type) where
  val : α
  saved : Option Error := none
  fatal : Option Error := none
deriving Repr

/-- Replace the decoded value, keeping the errors. -/
def Dec.map {α β : Type} (f : α → β) (d : Dec α) : Dec β :=
  ⟨f d.val, d.saved, d.fatal⟩

/-- What `json.Unmarshal` returns: the error that stopped the run, else the
first saved type mismatch, else nil. -/
def Dec.err {α : Type} (d : Dec α) : Option Error :=
  match d.fatal with
  | some e => some e
  | none => d.saved

/-- The case folding under which `encoding/json` matches an object member name
against a struct field name made of ASCII letters: ASCII case is ignored, and the
Kelvin sign and the long s fold to `k` and `s`. -/
def foldChar (c : Char) : Char :=
  if c.toNat = 0x212A then 'k'
  else if c.toNat = 0x017F then 's'
  else c.toLower

/-- The member name `key` selects the struct field named `name`. Within every
struct below no two field names are equal under folding, so the exact match the
decoder tries first selects the same field. -/
def equalFold (key name : String) : Bool :=
  key.toList.map foldChar == name.toList.map foldChar

/-- Decoding into a Go `string`: null leaves it, a JSON string sets it, anything
else is a saved type mismatch. -/
def decodeString : Json → String → Dec String
  | .null, cur => ⟨cur, none, none⟩
  | .str s, _ => ⟨s, none, none⟩
  | j, cur => ⟨cur, some (.unmarshalType j.kind "string"), none⟩

/-- Decoding into a Go `int` (64 bits): an integer literal that fits sets it;
a literal out of range or with a fraction or exponent is a saved type mismatch. -/
def decodeInt : Json → Int → Dec Int
  | .null, cur => ⟨cur, none, none⟩
  | .num n, cur =>
    if -2 ^ 63 ≤ n ∧ n < 2 ^ 63 then ⟨n, none, none⟩
    else ⟨cur, some (.unmarshalType "number" "int"), none⟩
  | j, cur => ⟨cur, some (.unmarshalType j.kind "int"), none⟩

/-- Decoding into a Go `bool`. -/
def decodeBool : Json → Bool → Dec Bool
  | .null, cur => ⟨cur, none, none⟩
  | .bool b, _ => ⟨b, none, none⟩
  | j, cur => ⟨cur, some (.unmarshalType j.kind "bool"), none⟩

/-- One step of decoding a sequence (object members or array elements): once an
error has stopped the run nothing more is decoded; a saved mismatch is kept only
if it is the first. -/
def Dec.step {α : Type} (acc : Dec α) (f : α → Dec α) : Dec α :=
  match acc.fatal with
  | some _ => acc
  | none =>
    let r := f acc.val
    ⟨r.val, match acc.saved with | some e => some e | none => r.saved, r.fatal⟩

/-- Decoding into a Go struct: null leaves it, an object decodes its members in
order, each into the field its name selects (`field`), anything else is a saved
type mismatch. -/
def decodeStruct {α : Type} (goType : String) (field : String → Json → α → Dec α) :
    Json → α → Dec α
  | .null, cur => ⟨cur, none, none⟩
  | .obj members, cur =>
    members.foldl (fun acc m => acc.step (field m.1 m.2)) ⟨cur, none, none⟩
  | j, cur => ⟨cur, some (.unmarshalType j.kind goType), none⟩

/-- A Go slice: `none` is the nil slice, `some l` a non-nil slice of the
elements `l`. -/
abbrev Slice (α : Type) := Option (List α)

/-- Decoding the elements of a JSON array into a slice, left to right: element
`i` is decoded into the slice's element `i` when it has one and into a zero
element otherwise; an error that stops the run leaves the later elements as they
were. -/
def decodeElems {α : Type} (zero : α) (elem : Json → α → Dec α) :
    List Json → List α → Dec (List α)
  | [], _ => ⟨[], none, none⟩
  | j :: js, old =>
    let r := elem j (old.headD zero)
    match r.fatal with
    | some e => ⟨r.val :: old.tail, r.saved, some e⟩
    | none =>
      let rest := decodeElems zero elem js old.tail
      ⟨r.val :: rest.val,
        match r.saved with | some e => some e | none => rest.saved, rest.fatal⟩

/-- Decoding into a Go slice: null sets it to nil, an array sets it to the
decoded elements (an empty array to an empty non-nil slice), anything else is a
saved type mismatch. Elements past the length of a slice that an earlier member
of the same name had filled are decoded into zero elements here. -/
def decodeSlice {α : Type} (goType : String) (zero : α) (elem : Json → α → Dec α) :
    Json → Slice α → Dec (Slice α)
  | .null, _ => ⟨none, none, none⟩
  | .arr items, cur => (decodeElems zero elem items (cur.getD [])).map some
  | j, cur => ⟨cur, some (.unmarshalType j.kind goType), none⟩

/-! ## Stage names and option records (`app.go`) -/

/-- Stage represents the middle and temporary state of application before
reaching its final desired state (`type Stage string`). -/
abbrev Stage := String

def StageWait : Stage := "WAIT"
def StageWaitApproval : Stage := "WAIT_APPROVAL"
def StageAnalysis : Stage := "ANALYSIS"
def StageK8sPrimaryOut : Stage := "K8S_PRIMARY_OUT"
def StageK8sStageOut : Stage := "K8S_STAGE_OUT"
def StageK8sStageIn : Stage := "K8S_STAGE_IN"
def StageK8sBaselineOut : Stage := "K8S_BASELINE_OUT"
def StageK8sBaselineIn : Stage := "K8S_BASELINE_IN"
def StageK8sTrafficRoute : Stage := "K8S_TRAFFIC_ROUTE"
def StageTerraformPlan : Stage := "TERRAFORM_PLAN"
def StageTerraformApply : Stage := "TERRAFORM_APPLY"

/-- The eleven stage names the decoder's switch has a case for, in the order of
the cases. -/
def supportedStages : List Stage :=
  [StageWait, StageWaitApproval, StageAnalysis, StageK8sPrimaryOut, StageK8sStageOut,
    StageK8sStageIn, StageK8sBaselineOut, StageK8sBaselineIn, StageK8sTrafficRoute,
    StageTerraformPlan, StageTerraformApply]

/-- A `Duration` value: the type is declared outside `app.go`; it is a time span
whose zero value is 0, kept here as a count of nanoseconds. -/
abbrev Duration := Int

/-- How `Duration` is read from and written to JSON. The type and its methods
are declared outside `app.go`, so they are a parameter of the decoder:
`unmarshal j cur` decodes the JSON value `j` into a `Duration` currently holding
`cur`, `marshal` encodes one. -/
structure DurationCodec where
  unmarshal : Json → Duration → Dec Duration
  marshal : Duration → Json

/-- WaitStageOptions contains all configurable values for a WAIT stage. -/
structure WaitStageOptions where
  Duration : Duration := 0
deriving DecidableEq, Repr, Inhabited

/-- WaitApprovalStageOptions contains all configurable values for a
WAIT_APPROVAL stage. -/
structure WaitApprovalStageOptions where
  Approvers : Slice String := none
deriving DecidableEq, Repr, Inhabited

/-- K8sPrimaryOutStageOptions contains all configurable values for a
K8S_PRIMARY_OUT stage. -/
structure K8sPrimaryOutStageOptions where
  Manifests : Slice String := none
deriving DecidableEq, Repr, Inhabited

/-- K8sStageOutStageOptions contains all configurable values for a K8S_STAGE_OUT
stage. -/
structure K8sStageOutStageOptions where
  Weight : Int := 0
  Suffix : String := ""
  WithService : Bool := false
deriving DecidableEq, Repr, Inhabited

/-- K8sStageInStageOptions contains all configurable values for a K8S_STAGE_IN
stage. -/
structure K8sStageInStageOptions where
deriving DecidableEq, Repr, Inhabited

/-- K8sBaselineOutStageOptions contains all configurable values for a
K8S_BASELINE_OUT stage. -/
structure K8sBaselineOutStageOptions where
  Weight : Int := 0
  Suffix : String := ""
  WithService : Bool := false
deriving DecidableEq, Repr, Inhabited

/-- K8sBaselineInStageOptions contains all configurable values for a
K8S_BASELINE_IN stage. -/
structure K8sBaselineInStageOptions where
deriving DecidableEq, Repr, Inhabited

/-- K8sTrafficRouteStageOptions contains all configurable values for a
K8S_TRAFFIC_ROUTE stage. -/
structure K8sTrafficRouteStageOptions where
  Target : String := ""
  Primary : Int := 0
  Stage : Int := 0
  Baseline : Int := 0
deriving DecidableEq, Repr, Inhabited

/-- TerraformPlanStageOptions contains all configurable values for a
TERRAFORM_PLAN stage. -/
structure TerraformPlanStageOptions where
deriving DecidableEq, Repr, Inhabited

/-- TerraformApplyStageOptions contains all configurable values for a
TERRAFORM_APPLY stage. -/
structure TerraformApplyStageOptions where
deriving DecidableEq, Repr, Inhabited

structure AnalysisMetrics where
  Query : String := ""
  Expected : String := ""
  Interval : Duration := 0
  Timeout : Duration := 0
  Provider : String := ""
  UseTemplate : String := ""
deriving DecidableEq, Repr, Inhabited

structure AnalysisLog where
  Query : String := ""
  Threshold : Int := 0
  Provider : String := ""
  UseTemplate : String := ""
deriving DecidableEq, Repr, Inhabited

structure AnalysisHTTP where
  URL : String := ""
  Method : String := ""
  Headers : Slice String := none
  ExpectedStatus : String := ""
  ExpectedResponse : String := ""
  Interval : Duration := 0
  Timeout : Duration := 0
  UseTemplate : String := ""
deriving DecidableEq, Repr, Inhabited

/-- AnalysisStageOptions contains all configurable values for an ANALYSIS
stage. -/
structure AnalysisStageOptions where
  Duration : Duration := 0
  Threshold : Int := 0
  RestartThreshold : Int := 0
  Metrics : Slice AnalysisMetrics := none
  Logs : Slice AnalysisLog := none
  Https : Slice AnalysisHTTP := none
deriving DecidableEq, Repr, Inhabited

/-! ## Decoding the option records -/

/-- An object member that selects no field of the struct is skipped. -/
def Dec.skip {α : Type} (cur : α) : Dec α := ⟨cur, none, none⟩

def WaitStageOptions.field (dc : DurationCodec) (key : String) (v : Json)
    (cur : WaitStageOptions) : Dec WaitStageOptions :=
  if equalFold key "duration" then
    (dc.unmarshal v cur.Duration).map fun d => { cur with Duration := d }
  else Dec.skip cur

def WaitApprovalStageOptions.field (key : String) (v : Json)
    (cur : WaitApprovalStageOptions) : Dec WaitApprovalStageOptions :=
  if equalFold key "approvers" then
    (decodeSlice "[]string" "" decodeString v cur.Approvers).map fun l =>
      { cur with Approvers := l }
  else Dec.skip cur

def K8sPrimaryOutStageOptions.field (key : String) (v : Json)
    (cur : K8sPrimaryOutStageOptions) : Dec K8sPrimaryOutStageOptions :=
  if equalFold key "manifests" then
    (decodeSlice "[]string" "" decodeString v cur.Manifests).map fun l =>
      { cur with Manifests := l }
  else Dec.skip cur

def K8sStageOutStageOptions.field (key : String) (v : Json)
    (cur : K8sStageOutStageOptions) : Dec K8sStageOutStageOptions :=
  if equalFold key "weight" then
    (decodeInt v cur.Weight).map fun n => { cur with Weight := n }
  else if equalFold key "Suffix" then
    (decodeString v cur.Suffix).map fun x => { cur with Suffix := x }
  else if equalFold key "WithService" then
    (decodeBool v cur.WithService).map fun b => { cur with WithService := b }
  else Dec.skip cur

def K8sStageInStageOptions.field (_key : String) (_v : Json)
    (cur : K8sStageInStageOptions) : Dec K8sStageInStageOptions :=
  Dec.skip cur

def K8sBaselineOutStageOptions.field (key : String) (v : Json)
    (cur : K8sBaselineOutStageOptions) : Dec K8sBaselineOutStageOptions :=
  if equalFold key "weight" then
    (decodeInt v cur.Weight).map fun n => { cur with Weight := n }
  else if equalFold key "Suffix" then
    (decodeString v cur.Suffix).map fun x => { cur with Suffix := x }
  else if equalFold key "WithService" then
    (decodeBool v cur.WithService).map fun b => { cur with WithService := b }
  else Dec.skip cur

def K8sBaselineInStageOptions.field (_key : String) (_v : Json)
    (cur : K8sBaselineInStageOptions) : Dec K8sBaselineInStageOptions :=
  Dec.skip cur

def K8sTrafficRouteStageOptions.field (key : String) (v : Json)
    (cur : K8sTrafficRouteStageOptions) : Dec K8sTrafficRouteStageOptions :=
  if equalFold key "target" then
    (decodeString v cur.Target).map fun x => { cur with Target := x }
  else if equalFold key "primary" then
    (decodeInt v cur.Primary).map fun n => { cur with Primary := n }
  else if equalFold key "stage" then
    (decodeInt v cur.Stage).map fun n => { cur with Stage := n }
  else if equalFold key "baseline" then
    (decodeInt v cur.Baseline).map fun n => { cur with Baseline := n }
  else Dec.skip cur

def TerraformPlanStageOptions.field (_key : String) (_v : Json)
    (cur : TerraformPlanStageOptions) : Dec TerraformPlanStageOptions :=
  Dec.skip cur

def TerraformApplyStageOptions.field (_key : String) (_v : Json)
    (cur : TerraformApplyStageOptions) : Dec TerraformApplyStageOptions :=
  Dec.skip cur

def AnalysisMetrics.field (dc : DurationCodec) (key : String) (v : Json)
    (cur : AnalysisMetrics) : Dec AnalysisMetrics :=
  if equalFold key "query" then
    (decodeString v cur.Query).map fun x => { cur with Query := x }
  else if equalFold key "expected" then
    (decodeString v cur.Expected).map fun x => { cur with Expected := x }
  else if equalFold key "interval" then
    (dc.unmarshal v cur.Interval).map fun d => { cur with Interval := d }
  else if equalFold key "timeout" then
    (dc.unmarshal v cur.Timeout).map fun d => { cur with Timeout := d }
  else if equalFold key "provider" then
    (decodeString v cur.Provider).map fun x => { cur with Provider := x }
  else if equalFold key "useTemplate" then
    (decodeString v cur.UseTemplate).map fun x => { cur with UseTemplate := x }
  else Dec.skip cur

def AnalysisLog.field (key : String) (v : Json) (cur : AnalysisLog) : Dec AnalysisLog :=
  if equalFold key "Query" then
    (decodeString v cur.Query).map fun x => { cur with Query := x }
  else if equalFold key "Threshold" then
    (decodeInt v cur.Threshold).map fun n => { cur with Threshold := n }
  else if equalFold key "Provider" then
    (decodeString v cur.Provider).map fun x => { cur with Provider := x }
  else if equalFold key "UseTemplate" then
    (decodeString v cur.UseTemplate).map fun x => { cur with UseTemplate := x }
  else Dec.skip cur

def AnalysisHTTP.field (dc : DurationCodec) (key : String) (v : Json)
    (cur : AnalysisHTTP) : Dec AnalysisHTTP :=
  if equalFold key "URL" then
    (decodeString v cur.URL).map fun x => { cur with URL := x }
  else if equalFold key "Method" then
    (decodeString v cur.Method).map fun x => { cur with Method := x }
  else if equalFold key "Headers" then
    (decodeSlice "[]string" "" decodeString v cur.Headers).map fun l =>
      { cur with Headers := l }
  else if equalFold key "ExpectedStatus" then
    (decodeString v cur.ExpectedStatus).map fun x => { cur with ExpectedStatus := x }
  else if equalFold key "ExpectedResponse" then
    (decodeString v cur.ExpectedResponse).map fun x => { cur with ExpectedResponse := x }
  else if equalFold key "Interval" then
    (dc.unmarshal v cur.Interval).map fun d => { cur with Interval := d }
  else if equalFold key "Timeout" then
    (dc.unmarshal v cur.Timeout).map fun d => { cur with Timeout := d }
  else if equalFold key "UseTemplate" then
    (decodeString v cur.UseTemplate).map fun x => { cur with UseTemplate := x }
  else Dec.skip cur

def AnalysisStageOptions.field (dc : DurationCodec) (key : String) (v : Json)
    (cur : AnalysisStageOptions) : Dec AnalysisStageOptions :=
  if equalFold key "duration" then
    (dc.unmarshal v cur.Duration).map fun d => { cur with Duration := d }
  else if equalFold key "threshold" then
    (decodeInt v cur.Threshold).map fun n => { cur with Threshold := n }
  else if equalFold key "restartThreshold" then
    (decodeInt v cur.RestartThreshold).map fun n => { cur with RestartThreshold := n }
  else if equalFold key "metrics" then
    (decodeSlice "[]config.AnalysisMetrics" {}
      (decodeStruct "config.AnalysisMetrics" (AnalysisMetrics.field dc)) v cur.Metrics).map
      fun l => { cur with Metrics := l }
  else if equalFold key "logs" then
    (decodeSlice "[]config.AnalysisLog" {}
      (decodeStruct "config.AnalysisLog" AnalysisLog.field) v cur.Logs).map
      fun l => { cur with Logs := l }
  else if equalFold key "https" then
    (decodeSlice "[]config.AnalysisHTTP" {}
      (decodeStruct "config.AnalysisHTTP" (AnalysisHTTP.field dc)) v cur.Https).map
      fun l => { cur with Https := l }
  else Dec.skip cur

/-- The call `json.Unmarshal(data, v)` for a Go value `v` whose type decodes by
`dec`: the value afterwards and the error returned. -/
def jsonUnmarshal {α : Type} (dec : Json → α → Dec α) (data : Json) (v : α) :
    α × Option Error :=
  ((dec data v).val, (dec data v).err)

/-! ## The stage decoder -/

/-- A `json.RawMessage` filled by the decoder: nil (`none`) when the member was
absent, else the text of the member's value. The text of a JSON value is never
empty, so `len(m) > 0` holds exactly for `some _`. -/
abbrev RawMessage := Option Json

/-- The generic record every stage is first decoded into. -/
structure genericPipelineStage where
  Name : Stage := ""
  Desc : String := ""
  Timeout : Duration := 0
  With : RawMessage := none

def genericPipelineStage.field (dc : DurationCodec) (key : String) (v : Json)
    (cur : genericPipelineStage) : Dec genericPipelineStage :=
  if equalFold key "name" then
    (decodeString v cur.Name).map fun x => { cur with Name := x }
  else if equalFold key "desc" then
    (decodeString v cur.Desc).map fun x => { cur with Desc := x }
  else if equalFold key "timeout" then
    (dc.unmarshal v cur.Timeout).map fun d => { cur with Timeout := d }
  else if equalFold key "with" then
    ⟨{ cur with With := some v }, none, none⟩
  else Dec.skip cur

/-- The statements `gs := genericPipelineStage{}` and `json.Unmarshal(data, &gs)`:
the record `gs` afterwards and the error returned. -/
def decodeGeneric (dc : DurationCodec) (data : Json) : genericPipelineStage × Option Error :=
  jsonUnmarshal (decodeStruct "config.genericPipelineStage" (genericPipelineStage.field dc))
    data {}

/-- PipelineStage represents a single stage of a pipeline. This is used as a
generic struct for all stage types: the stage's name, description and timeout,
and one pointer per option record (`none` is the nil pointer). -/
structure PipelineStage where
  Name : Stage := ""
  Desc : String := ""
  Timeout : Duration := 0
  WaitStageOptions : Option WaitStageOptions := none
  WaitApprovalStageOptions : Option WaitApprovalStageOptions := none
  AnalysisStageOptions : Option AnalysisStageOptions := none
  K8sPrimaryOutStageOptions : Option K8sPrimaryOutStageOptions := none
  K8sStageOutStageOptions : Option K8sStageOutStageOptions := none
  K8sStageInStageOptions : Option K8sStageInStageOptions := none
  K8sBaselineOutStageOptions : Option K8sBaselineOutStageOptions := none
  K8sBaselineInStageOptions : Option K8sBaselineInStageOptions := none
  K8sTrafficRouteStageOptions : Option K8sTrafficRouteStageOptions := none
  TerraformPlanStageOptions : Option TerraformPlanStageOptions := none
  TerraformApplyStageOptions : Option TerraformApplyStageOptions := none
deriving DecidableEq, Repr, Inhabited

/-- The statement `if len(gs.With) > 0 { err = json.Unmarshal(gs.With, opts) }`
on a freshly allocated option record `opts`: the record afterwards and `err`. -/
def unmarshalWith {α : Type} (dec : Json → α → Dec α) (w : RawMessage) (opts : α) :
    α × Option Error :=
  match w with
  | some payload => jsonUnmarshal dec payload opts
  | none => (opts, none)

/-- The method `func (s *PipelineStage) UnmarshalJSON(data []byte) error`: the
receiver afterwards and the error returned. `data` is the JSON value the bytes
denote. -/
def PipelineStage.UnmarshalJSON (dc : DurationCodec) (s : PipelineStage) (data : Json) :
    PipelineStage × Option Error :=
  match decodeGeneric dc data with
  | (_, some err) => (s, some err)
  | (gs, none) =>
    let s := { s with Name := gs.Name, Desc := gs.Desc, Timeout := gs.Timeout }
    if s.Name = StageWait then
      let r := unmarshalWith (decodeStruct "config.WaitStageOptions"
        (WaitStageOptions.field dc)) gs.With {}
      ({ s with WaitStageOptions := some r.1 }, r.2)
    else if s.Name = StageWaitApproval then
      let r := unmarshalWith (decodeStruct "config.WaitApprovalStageOptions"
        WaitApprovalStageOptions.field) gs.With {}
      ({ s with WaitApprovalStageOptions := some r.1 }, r.2)
    else if s.Name = StageAnalysis then
      let r := unmarshalWith (decodeStruct "config.AnalysisStageOptions"
        (AnalysisStageOptions.field dc)) gs.With {}
      ({ s with AnalysisStageOptions := some r.1 }, r.2)
    else if s.Name = StageK8sPrimaryOut then
      let r := unmarshalWith (decodeStruct "config.K8sPrimaryOutStageOptions"
        K8sPrimaryOutStageOptions.field) gs.With {}
      ({ s with K8sPrimaryOutStageOptions := some r.1 }, r.2)
    else if s.Name = StageK8sStageOut then
      let r := unmarshalWith (decodeStruct "config.K8sStageOutStageOptions"
        K8sStageOutStageOptions.field) gs.With {}
      ({ s with K8sStageOutStageOptions := some r.1 }, r.2)
    else if s.Name = StageK8sStageIn then
      let r := unmarshalWith (decodeStruct "config.K8sStageInStageOptions"
        K8sStageInStageOptions.field) gs.With {}
      ({ s with K8sStageInStageOptions := some r.1 }, r.2)
    else if s.Name = StageK8sBaselineOut then
      let r := unmarshalWith (decodeStruct "config.K8sBaselineOutStageOptions"
        K8sBaselineOutStageOptions.field) gs.With {}
      ({ s with K8sBaselineOutStageOptions := some r.1 }, r.2)
    else if s.Name = StageK8sBaselineIn then
      let r := unmarshalWith (decodeStruct "config.K8sBaselineInStageOptions"
        K8sBaselineInStageOptions.field) gs.With {}
      ({ s with K8sBaselineInStageOptions := some r.1 }, r.2)
    else if s.Name = StageK8sTrafficRoute then
      let r := unmarshalWith (decodeStruct "config.K8sTrafficRouteStageOptions"
        K8sTrafficRouteStageOptions.field) gs.With {}
      ({ s with K8sTrafficRouteStageOptions := some r.1 }, r.2)
    else if s.Name = StageTerraformPlan then
      let r := unmarshalWith (decodeStruct "config.TerraformPlanStageOptions"
        TerraformPlanStageOptions.field) gs.With {}
      ({ s with TerraformPlanStageOptions := some r.1 }, r.2)
    else if s.Name = StageTerraformApply then
      let r := unmarshalWith (decodeStruct "config.TerraformApplyStageOptions"
        TerraformApplyStageOptions.field) gs.With {}
      ({ s with TerraformApplyStageOptions := some r.1 }, r.2)
    else
      (s, some (Error.errorf ("unsupported stage name: " ++ s.Name)))

/-- A sample `Duration` codec for evaluating the decoder on concrete records: an
integer literal is a count of nanoseconds. -/
def nanosCodec : DurationCodec where
  unmarshal := decodeInt
  marshal := Json.num

/-- The names of the stages whose option field is populated (non-nil) in `s`, in
the order the fields are declared. -/
def PipelineStage.populated (s : PipelineStage) : List Stage :=
  (if s.WaitStageOptions.isSome then [StageWait] else [])
  ++ (if s.WaitApprovalStageOptions.isSome then [StageWaitApproval] else [])
  ++ (if s.AnalysisStageOptions.isSome then [StageAnalysis] else [])
  ++ (if s.K8sPrimaryOutStageOptions.isSome then [StageK8sPrimaryOut] else [])
  ++ (if s.K8sStageOutStageOptions.isSome then [StageK8sStageOut] else [])
  ++ (if s.K8sStageInStageOptions.isSome then [StageK8sStageIn] else [])
  ++ (if s.K8sBaselineOutStageOptions.isSome then [StageK8sBaselineOut] else [])
  ++ (if s.K8sBaselineInStageOptions.isSome then [StageK8sBaselineIn] else [])
  ++ (if s.K8sTrafficRouteStageOptions.isSome then [StageK8sTrafficRoute] else [])
  ++ (if s.TerraformPlanStageOptions.isSome then [StageTerraformPlan] else [])
  ++ (if s.TerraformApplyStageOptions.isSome then [StageTerraformApply] else [])

/-! ## Encoding to the generic record form

`json.Marshal` writes a record as an object with one member per field, under the
field's tag (or its name when it has none). The option records and the generic
record `genericPipelineStage` are written so. -/

/-- Encoding a `[]string`: a nil slice is written as null. -/
def marshalStrings : Slice String → Json
  | none => .null
  | some l => .arr (l.map .str)

/-- Encoding a slice of records. -/
def marshalSlice {α : Type} (f : α → Json) : Slice α → Json
  | none => .null
  | some l => .arr (l.map f)

def WaitStageOptions.marshal (dc : DurationCodec) (o : WaitStageOptions) : Json :=
  .obj [("duration", dc.marshal o.Duration)]

def WaitApprovalStageOptions.marshal (o : WaitApprovalStageOptions) : Json :=
  .obj [("approvers", marshalStrings o.Approvers)]

def K8sPrimaryOutStageOptions.marshal (o : K8sPrimaryOutStageOptions) : Json :=
  .obj [("manifests", marshalStrings o.Manifests)]

def K8sStageOutStageOptions.marshal (o : K8sStageOutStageOptions) : Json :=
  .obj [("weight", .num o.Weight), ("Suffix", .str o.Suffix),
    ("WithService", .bool o.WithService)]

def K8sStageInStageOptions.marshal (_o : K8sStageInStageOptions) : Json := .obj []

def K8sBaselineOutStageOptions.marshal (o : K8sBaselineOutStageOptions) : Json :=
  .obj [("weight", .num o.Weight), ("Suffix", .str o.Suffix),
    ("WithService", .bool o.WithService)]

def K8sBaselineInStageOptions.marshal (_o : K8sBaselineInStageOptions) : Json := .obj []

/-- The member `target` is tagged `omitempty`: it is left out when empty. -/
def K8sTrafficRouteStageOptions.marshal (o : K8sTrafficRouteStageOptions) : Json :=
  .obj ((if o.Target = "" then [] else [("target", .str o.Target)])
    ++ [("primary", .num o.Primary), ("stage", .num o.Stage), ("baseline", .num o.Baseline)])

def TerraformPlanStageOptions.marshal (_o : TerraformPlanStageOptions) : Json := .obj []

def TerraformApplyStageOptions.marshal (_o : TerraformApplyStageOptions) : Json := .obj []

def AnalysisMetrics.marshal (dc : DurationCodec) (m : AnalysisMetrics) : Json :=
  .obj [("query", .str m.Query), ("expected", .str m.Expected),
    ("interval", dc.marshal m.Interval), ("timeout", dc.marshal m.Timeout),
    ("provider", .str m.Provider), ("useTemplate", .str m.UseTemplate)]

def AnalysisLog.marshal (l : AnalysisLog) : Json :=
  .obj [("Query", .str l.Query), ("Threshold", .num l.Threshold),
    ("Provider", .str l.Provider), ("UseTemplate", .str l.UseTemplate)]

def AnalysisHTTP.marshal (dc : DurationCodec) (h : AnalysisHTTP) : Json :=
  .obj [("URL", .str h.URL), ("Method", .str h.Method), ("Headers", marshalStrings h.Headers),
    ("ExpectedStatus", .str h.ExpectedStatus), ("ExpectedResponse", .str h.ExpectedResponse),
    ("Interval", dc.marshal h.Interval), ("Timeout", dc.marshal h.Timeout),
    ("UseTemplate", .str h.UseTemplate)]

def AnalysisStageOptions.marshal (dc : DurationCodec) (o : AnalysisStageOptions) : Json :=
  .obj [("duration", dc.marshal o.Duration), ("threshold", .num o.Threshold),
    ("restartThreshold", .num o.RestartThreshold),
    ("metrics", marshalSlice (AnalysisMetrics.marshal dc) o.Metrics),
    ("logs", marshalSlice AnalysisLog.marshal o.Logs),
    ("https", marshalSlice (AnalysisHTTP.marshal dc) o.Https)]

/-- The value `json.Marshal` writes for a `genericPipelineStage`: the members
`name`, `desc` (left out when empty, as tagged), `timeout` and `with`; a nil
`json.RawMessage` is written as null. -/
def genericPipelineStage.marshal (dc : DurationCodec) (gs : genericPipelineStage) : Json :=
  .obj ([("name", .str gs.Name)]
    ++ (if gs.Desc = "" then [] else [("desc", .str gs.Desc)])
    ++ [("timeout", dc.marshal gs.Timeout), ("with", gs.With.getD .null)])

/-- Modelled from the spec: the raw payload of a stage in the generic record
form, which the code has no encoder for: the populated option record (the first
non-nil option field), written by `json.Marshal` under its tags; nil when no
option field is populated. -/
def PipelineStage.payload (dc : DurationCodec) (s : PipelineStage) : RawMessage :=
  if let some o := s.WaitStageOptions then some (o.marshal dc)
  else if let some o := s.WaitApprovalStageOptions then some o.marshal
  else if let some o := s.AnalysisStageOptions then some (o.marshal dc)
  else if let some o := s.K8sPrimaryOutStageOptions then some o.marshal
  else if let some o := s.K8sStageOutStageOptions then some o.marshal
  else if let some o := s.K8sStageInStageOptions then some o.marshal
  else if let some o := s.K8sBaselineOutStageOptions then some o.marshal
  else if let some o := s.K8sBaselineInStageOptions then some o.marshal
  else if let some o := s.K8sTrafficRouteStageOptions then some o.marshal
  else if let some o := s.TerraformPlanStageOptions then some o.marshal
  else if let some o := s.TerraformApplyStageOptions then some o.marshal
  else none

/-- Modelled from the spec: the encoding of a `PipelineStage` back to the generic
record form `{name, desc, timeout, with}`, which the code has no encoder for: the
generic record holding the stage's name, description and timeout and, as `with`,
the payload of its populated option record, written by `json.Marshal`. -/
def PipelineStage.encodeGeneric (dc : DurationCodec) (s : PipelineStage) : Json :=
  genericPipelineStage.marshal dc
    { Name := s.Name, Desc := s.Desc, Timeout := s.Timeout, With := s.payload dc }

/-- An integer that fits a Go `int` (64 bits). -/
def fitsInt (n : Int) : Prop := -2 ^ 63 ≤ n ∧ n < 2 ^ 63

/-- The durations an ANALYSIS option record holds: its own and those of its
metrics and HTTP checks. -/
def AnalysisStageOptions.durations (o : AnalysisStageOptions) : List config.Duration :=
  o.Duration
    :: ((o.Metrics.getD []).flatMap (fun m => [m.Interval, m.Timeout])
      ++ (o.Https.getD []).flatMap (fun h => [h.Interval, h.Timeout]))

/-- The durations a stage holds: its timeout and those of its WAIT and ANALYSIS
option records. -/
def PipelineStage.durations (s : PipelineStage) : List Duration :=
  s.Timeout
    :: (((s.WaitStageOptions.map fun o => [o.Duration]).getD [])
      ++ ((s.AnalysisStageOptions.map AnalysisStageOptions.durations).getD []))

/-- The stage `s` with every populated option record replaced by the zero value
of its type. -/
def PipelineStage.zeroOptions (s : PipelineStage) : PipelineStage :=
  { s with
    WaitStageOptions := s.WaitStageOptions.map fun _ => {}
    WaitApprovalStageOptions := s.WaitApprovalStageOptions.map fun _ => {}
    AnalysisStageOptions := s.AnalysisStageOptions.map fun _ => {}
    K8sPrimaryOutStageOptions := s.K8sPrimaryOutStageOptions.map fun _ => {}
    K8sStageOutStageOptions := s.K8sStageOutStageOptions.map fun _ => {}
    K8sStageInStageOptions := s.K8sStageInStageOptions.map fun _ => {}
    K8sBaselineOutStageOptions := s.K8sBaselineOutStageOptions.map fun _ => {}
    K8sBaselineInStageOptions := s.K8sBaselineInStageOptions.map fun _ => {}
    K8sTrafficRouteStageOptions := s.K8sTrafficRouteStageOptions.map fun _ => {}
    TerraformPlanStageOptions := s.TerraformPlanStageOptions.map fun _ => {}
    TerraformApplyStageOptions := s.TerraformApplyStageOptions.map fun _ => {} }

/-! ## Application specs -/

structure K8sDeployTarget where
  Kind : String := ""
  Name : String := ""
deriving DecidableEq, Repr, Inhabited

structure K8sService where
  Name : String := ""
deriving DecidableEq, Repr, Inhabited

structure StageTrackOptions where
  Target : Option K8sDeployTarget := none
  Service : Option K8sService := none
deriving DecidableEq, Repr, Inhabited

structure BaselineTrackOptions where
  Target : Option K8sDeployTarget := none
  Service : Option K8sService := none
deriving DecidableEq, Repr, Inhabited

/-- AppPipeline represents the way to deploy the application. -/
structure AppPipeline where
  Stages : Slice PipelineStage := none
  StageTrack : StageTrackOptions := {}
  BaselineTrack : BaselineTrackOptions := {}
deriving DecidableEq, Repr, Inhabited

structure KubernetesAppInput where
  Manifests : Slice String := none
  KubectlVersion : String := ""
  HelmChart : String := ""
  HelmValueFiles : Slice String := none
  HelmVersion : String := ""
  Namespace : String := ""
  Dependencies : Slice String := none
deriving DecidableEq, Repr, Inhabited

structure TerraformAppInput where
  Workspace : String := ""
  TerraformVersion : String := ""
  Dependencies : Slice String := none
deriving DecidableEq, Repr, Inhabited

/-- KubernetesAppSpec represents configuration for a Kubernetes application.
`Selector` holds the entries of the Go map. -/
structure KubernetesAppSpec where
  Selector : List (String × String) := []
  Input : Option KubernetesAppInput := none
  Pipeline : Option AppPipeline := none
  Destination : String := ""
deriving DecidableEq, Repr, Inhabited

/-- Validate returns an error if any wrong configuration value was found. The
body is the single statement `return nil`. -/
def KubernetesAppSpec.Validate (_s : KubernetesAppSpec) : Option Error :=
  none

/-- TerraformAppSpec represents configuration for a Terraform application. -/
structure TerraformAppSpec where
  Input : Option TerraformAppInput := none
  Pipeline : Option AppPipeline := none
  Destination : String := ""
deriving DecidableEq, Repr, Inhabited

/-- Validate returns an error if any wrong configuration value was found. -/
def TerraformAppSpec.Validate (s : TerraformAppSpec) : Option Error :=
  if s.Destination = "" then
    some (Error.errorf "spec.destination for terraform application is required")
  else none

/-- A payload that is absent or empty: no `with` member, `null`, or `{}`. -/
def emptyPayload (w : RawMessage) : Prop :=
  w = none ∨ w = some Json.null ∨ w = some (Json.obj [])

/-! ## Decoding a pipeline -/

/-- Decoding into a `PipelineStage` that is part of a larger value: the type
implements `json.Unmarshaler`, so the decoder hands the element's text to
`UnmarshalJSON`, and an error it returns stops the run. -/
def PipelineStage.decode (dc : DurationCodec) (j : Json) (cur : PipelineStage) :
    Dec PipelineStage :=
  ⟨(PipelineStage.UnmarshalJSON dc cur j).1, none, (PipelineStage.UnmarshalJSON dc cur j).2⟩

/-- Decoding into a Go pointer: null sets it to nil; any other value is decoded
into the value pointed to, which is allocated as a zero value when the pointer is
nil. -/
def decodePtr {α : Type} (zero : α) (dec : Json → α → Dec α) : Json → Option α → Dec (Option α)
  | .null, _ => ⟨none, none, none⟩
  | j, cur => (dec j (cur.getD zero)).map some

def K8sDeployTarget.field (key : String) (v : Json) (cur : K8sDeployTarget) :
    Dec K8sDeployTarget :=
  if equalFold key "kind" then
    (decodeString v cur.Kind).map fun x => { cur with Kind := x }
  else if equalFold key "name" then
    (decodeString v cur.Name).map fun x => { cur with Name := x }
  else Dec.skip cur

def K8sService.field (key : String) (v : Json) (cur : K8sService) : Dec K8sService :=
  if equalFold key "name" then
    (decodeString v cur.Name).map fun x => { cur with Name := x }
  else Dec.skip cur

def StageTrackOptions.field (key : String) (v : Json) (cur : StageTrackOptions) :
    Dec StageTrackOptions :=
  if equalFold key "Target" then
    (decodePtr {} (decodeStruct "config.K8sDeployTarget" K8sDeployTarget.field) v
      cur.Target).map fun x => { cur with Target := x }
  else if equalFold key "Service" then
    (decodePtr {} (decodeStruct "config.K8sService" K8sService.field) v
      cur.Service).map fun x => { cur with Service := x }
  else Dec.skip cur

def BaselineTrackOptions.field (key : String) (v : Json) (cur : BaselineTrackOptions) :
    Dec BaselineTrackOptions :=
  if equalFold key "Target" then
    (decodePtr {} (decodeStruct "config.K8sDeployTarget" K8sDeployTarget.field) v
      cur.Target).map fun x => { cur with Target := x }
  else if equalFold key "Service" then
    (decodePtr {} (decodeStruct "config.K8sService" K8sService.field) v
      cur.Service).map fun x => { cur with Service := x }
  else Dec.skip cur

def AppPipeline.field (dc : DurationCodec) (key : String) (v : Json) (cur : AppPipeline) :
    Dec AppPipeline :=
  if equalFold key "stages" then
    (decodeSlice "[]config.PipelineStage" {} (PipelineStage.decode dc) v cur.Stages).map
      fun l => { cur with Stages := l }
  else if equalFold key "stageTrack" then
    (decodeStruct "config.StageTrackOptions" StageTrackOptions.field v cur.StageTrack).map
      fun x => { cur with StageTrack := x }
  else if equalFold key "baselineTrack" then
    (decodeStruct "config.BaselineTrackOptions" BaselineTrackOptions.field v
      cur.BaselineTrack).map fun x => { cur with BaselineTrack := x }
  else Dec.skip cur

/-- The statements `p := AppPipeline{}` and `json.Unmarshal(data, &p)`: the
pipeline afterwards and the error returned. -/
def decodePipeline (dc : DurationCodec) (data : Json) : AppPipeline × Option Error :=
  jsonUnmarshal (decodeStruct "config.AppPipeline" (AppPipeline.field dc)) data {}

/-! ## Payloads -/

/-- The payload sets the member `name`: it is an object with a member whose name
selects the field `name`. -/
def setsMember (name : String) : RawMessage → Bool
  | some (.obj members) => members.any fun m => equalFold m.1 name
  | _ => false

/-- The option type selected by a stage name, as the specification's registry
of option schemas has it: the error, if any, of parsing `payload` with
`json.Unmarshal` into a fresh record of the option type of the stage `name`. This
definition follows the specification's words and is what the decoder's switch is
compared with. -/
def payloadError (dc : DurationCodec) (name : Stage) (payload : Json) : Option Error :=
  if name = "WAIT" then
    (jsonUnmarshal (decodeStruct "config.WaitStageOptions" (WaitStageOptions.field dc))
      payload {}).2
  else if name = "WAIT_APPROVAL" then
    (jsonUnmarshal (decodeStruct "config.WaitApprovalStageOptions"
      WaitApprovalStageOptions.field) payload {}).2
  else if name = "ANALYSIS" then
    (jsonUnmarshal (decodeStruct "config.AnalysisStageOptions" (AnalysisStageOptions.field dc))
      payload {}).2
  else if name = "K8S_PRIMARY_OUT" then
    (jsonUnmarshal (decodeStruct "config.K8sPrimaryOutStageOptions"
      K8sPrimaryOutStageOptions.field) payload {}).2
  else if name = "K8S_STAGE_OUT" then
    (jsonUnmarshal (decodeStruct "config.K8sStageOutStageOptions"
      K8sStageOutStageOptions.field) payload {}).2
  else if name = "K8S_STAGE_IN" then
    (jsonUnmarshal (decodeStruct "config.K8sStageInStageOptions"
      K8sStageInStageOptions.field) payload {}).2
  else if name = "K8S_BASELINE_OUT" then
    (jsonUnmarshal (decodeStruct "config.K8sBaselineOutStageOptions"
      K8sBaselineOutStageOptions.field) payload {}).2
  else if name = "K8S_BASELINE_IN" then
    (jsonUnmarshal (decodeStruct "config.K8sBaselineInStageOptions"
      K8sBaselineInStageOptions.field) payload {}).2
  else if name = "K8S_TRAFFIC_ROUTE" then
    (jsonUnmarshal (decodeStruct "config.K8sTrafficRouteStageOptions"
      K8sTrafficRouteStageOptions.field) payload {}).2
  else if name = "TERRAFORM_PLAN" then
    (jsonUnmarshal (decodeStruct "config.TerraformPlanStageOptions"
      TerraformPlanStageOptions.field) payload {}).2
  else if name = "TERRAFORM_APPLY" then
    (jsonUnmarshal (decodeStruct "config.TerraformApplyStageOptions"
      TerraformApplyStageOptions.field) payload {}).2
  else none

/-! ## Sample records -/

/-- The record `{"name": "K8S_TRAFFIC_ROUTE", "with": {"primary": 50, "stage": 30,
"baseline": 20}}`. -/
def trafficRecord : Json :=
  .obj [("name", .str "K8S_TRAFFIC_ROUTE"),
    ("with", .obj [("primary", .num 50), ("stage", .num 30), ("baseline", .num 20)])]

/-- The stage `trafficRecord` decodes to. -/
def trafficStage : PipelineStage :=
  { Name := "K8S_TRAFFIC_ROUTE"
    K8sTrafficRouteStageOptions := some { Primary := 50, Stage := 30, Baseline := 20 } }

/-- The record `{"name": "WAIT", "with": {"duration": 5}}`. -/
def waitRecord : Json :=
  .obj [("name", .str "WAIT"), ("with", .obj [("duration", .num 5)])]

/-- The stage `waitRecord` decodes to under `nanosCodec`. -/
def waitStage : PipelineStage :=
  { Name := "WAIT", WaitStageOptions := some { Duration := 5 } }

/-- The record `{"name": "ANALYSIS"}`, which has no `with` member. -/
def analysisRecord : Json :=
  .obj [("name", .str "ANALYSIS")]

/-- The record `{"name": "K8S_TRAFFIC_ROUTE", "with": {"primary": 40, "stage": 40,
"baseline": 40}}`. -/
def overfullRecord : Json :=
  .obj [("name", .str "K8S_TRAFFIC_ROUTE"),
    ("with", .obj [("primary", .num 40), ("stage", .num 40), ("baseline", .num 40)])]

/-- The stage `overfullRecord` decodes to: no target, percentages summing to
120. -/
def overfullStage : PipelineStage :=
  { Name := "K8S_TRAFFIC_ROUTE"
    K8sTrafficRouteStageOptions := some { Primary := 40, Stage := 40, Baseline := 40 } }

/-- A Kubernetes application whose pipeline is the single stage `overfullStage`. -/
def overfullSpec : KubernetesAppSpec :=
  { Pipeline := some { Stages := some [overfullStage] } }

/-- The record `{"name": "K8S_STAGE_OUT", "with": {"weight": 10}}`, which sets
neither suffix nor withService. -/
def stageOutRecord : Json :=
  .obj [("name", .str "K8S_STAGE_OUT"), ("with", .obj [("weight", .num 10)])]

/-- The record `{"name": "K8S_BASELINE_OUT", "with": {"weight": 10}}`. -/
def baselineOutRecord : Json :=
  .obj [("name", .str "K8S_BASELINE_OUT"), ("with", .obj [("weight", .num 10)])]

/-- The record `{"name": "WAIT", "with": {"duration": "soon"}}`, whose payload
does not parse under `nanosCodec`. -/
def badWaitRecord : Json :=
  .obj [("name", .str "WAIT"), ("with", .obj [("duration", .str "soon")])]

/-- The record `{"name": "DEPLOY"}`, whose name is unsupported. -/
def deployRecord : Json :=
  .obj [("name", .str "DEPLOY")]

end config

namespace model

/-! ## Project users and single sign-on (`project.go`)

The message types (`Project`, `ProjectStaticUser`, `ProjectSingleSignOn`,
`ProjectSingleSignOn_GitHub`) and the constants `redactedMessage` and
`ProjectSingleSignOnProvider_GITHUB` are declared outside `project.go`: the
records below hold the fields the methods read or write, and the constants are
parameters. Library calls (`bcrypt`, `net/url`, `oauth2`) are parameters too. -/

/-- A Go `string`: its bytes. The empty string is `[]`. -/
abbrev GoString := List UInt8

/-- The bytes of a string literal of the source. -/
def lit (s : String) : GoString := s.toUTF8.data.toList

/-- A Go `error` value: `errorf` is built by `fmt.Errorf` from a format and its
string arguments, `errorfWrap` has an error as its last argument, `lib` is
returned by a library call. A nil `error` is `none : Option Error`. -/
inductive Error where
  | errorf (format : String) (args : List GoString)
  | errorfWrap (format : String) (args : List GoString) (cause : Error)
  | lib (msg : String)
deriving DecidableEq, Repr, Inhabited

/-- The constants declared outside `project.go`. -/
structure Consts where
  redactedMessage : GoString
  ProjectSingleSignOnProvider_GITHUB : Int

structure ProjectStaticUser where
  Username : GoString := []
  PasswordHash : GoString := []
deriving DecidableEq, Repr, Inhabited

structure ProjectSingleSignOn_GitHub where
  ClientId : GoString := []
  ClientSecret : GoString := []
  BaseUrl : GoString := []
  UploadUrl : GoString := []
  Org : GoString := []
  AdminTeam : GoString := []
  EditorTeam : GoString := []
  ViewerTeam : GoString := []
deriving DecidableEq, Repr, Inhabited

/-- The single sign-on configuration; `G` is the type of the Google
configuration, which no method looks into. -/
structure ProjectSingleSignOn (G : Type) where
  Provider : Int := 0
  Github : Option ProjectSingleSignOn_GitHub := none
  Google : Option G := none
deriving DecidableEq, Repr

/-- A project; `rest` stands for the fields no method of `project.go` touches. -/
structure Project (G R : Type) where
  StaticAdmin : Option ProjectStaticUser := none
  Sso : Option (ProjectSingleSignOn G) := none
  rest : R
deriving DecidableEq, Repr

/-- RedactSensitiveData redacts sensitive data. -/
def ProjectStaticUser.RedactSensitiveData (c : Consts) (p : ProjectStaticUser) :
    ProjectStaticUser :=
  { p with PasswordHash := c.redactedMessage }

/-- RedactSensitiveData redacts sensitive data. -/
def ProjectSingleSignOn_GitHub.RedactSensitiveData (c : Consts)
    (p : ProjectSingleSignOn_GitHub) : ProjectSingleSignOn_GitHub :=
  let p := { p with ClientId := c.redactedMessage }
  { p with ClientSecret := c.redactedMessage }

/-- RedactSensitiveData redacts sensitive data. The branch for `Google` is
empty. -/
def ProjectSingleSignOn.RedactSensitiveData {G : Type} (c : Consts)
    (p : ProjectSingleSignOn G) : ProjectSingleSignOn G :=
  match p.Github with
  | some g => { p with Github := some (g.RedactSensitiveData c) }
  | none => p

/-- RedactSensitiveData redacts sensitive data. -/
def Project.RedactSensitiveData {G R : Type} (c : Consts) (p : Project G R) : Project G R :=
  let p :=
    match p.StaticAdmin with
    | some u => { p with StaticAdmin := some (u.RedactSensitiveData c) }
    | none => p
  match p.Sso with
  | some sso => { p with Sso := some (sso.RedactSensitiveData c) }
  | none => p

/-- The function `subtle.ConstantTimeByteEq` on two bytes:
`int((uint32(x^y) - 1) >> 31)`, the subtraction wrapping at 32 bits. -/
def ConstantTimeByteEq (x y : Nat) : Int :=
  ((((x ^^^ y) + 2 ^ 32 - 1) % 2 ^ 32) >>> 31 : Nat)

/-- The function `subtle.ConstantTimeCompare`: 0 when the lengths differ, else
the bytewise differences are or-ed together and compared with 0. -/
def ConstantTimeCompare (x y : List UInt8) : Int :=
  if x.length ≠ y.length then 0
  else
    ConstantTimeByteEq
      ((x.zip y).foldl (fun v ab => v ||| (ab.1.toNat ^^^ ab.2.toNat)) 0) 0

/-- Auth confirms username and password. `bcryptCompare hash password` is
`bcrypt.CompareHashAndPassword`. -/
def ProjectStaticUser.Auth (bcryptCompare : GoString → GoString → Option Error)
    (p : ProjectStaticUser) (username password : GoString) : Option Error :=
  if username = [] then
    some (.errorf "username is empty" [])
  else if ConstantTimeCompare p.Username username ≠ 1 then
    some (.errorf "wrong username %q" [username])
  else if password = [] then
    some (.errorf "password is empty" [])
  else
    match bcryptCompare p.PasswordHash password with
    | some err => some (.errorfWrap "wrong password for username %q: %v" [username] err)
    | none => none

/-- Update updates ProjectStaticUser with given data. `bcryptGenerate password`
is `bcrypt.GenerateFromPassword` at the default cost. -/
def ProjectStaticUser.Update (bcryptGenerate : GoString → Except Error GoString)
    (p : ProjectStaticUser) (username password : GoString) :
    ProjectStaticUser × Option Error :=
  let p := if username ≠ [] then { p with Username := username } else p
  if password ≠ [] then
    match bcryptGenerate password with
    | .error err => (p, some err)
    | .ok encoded => ({ p with PasswordHash := encoded }, none)
  else (p, none)

/-- Update updates ProjectSingleSignOn_GitHub with given data. -/
def ProjectSingleSignOn_GitHub.Update (p input : ProjectSingleSignOn_GitHub) :
    ProjectSingleSignOn_GitHub :=
  let p := if input.ClientId ≠ [] then { p with ClientId := input.ClientId } else p
  let p := if input.ClientSecret ≠ [] then { p with ClientSecret := input.ClientSecret } else p
  let p := if input.BaseUrl ≠ [] then { p with BaseUrl := input.ClientSecret } else p
  let p := if input.UploadUrl ≠ [] then { p with UploadUrl := input.UploadUrl } else p
  let p := if input.Org ≠ [] then { p with Org := input.Org } else p
  let p := if input.AdminTeam ≠ [] then { p with AdminTeam := input.AdminTeam } else p
  let p := if input.EditorTeam ≠ [] then { p with EditorTeam := input.EditorTeam } else p
  if input.ViewerTeam ≠ [] then { p with ViewerTeam := input.ViewerTeam } else p

/-- Update updates ProjectSingleSignOn with given data. The branch for `Google`
is empty. -/
def ProjectSingleSignOn.Update {G : Type} (p sso : ProjectSingleSignOn G) :
    ProjectSingleSignOn G :=
  let p := { p with Provider := sso.Provider }
  match sso.Github with
  | some g => { p with Github := some ((p.Github.getD {}).Update g) }
  | none => p

/-- The fields of a parsed `*url.URL` the method reads. -/
structure URL where
  Scheme : GoString
  Host : GoString

/-- The fields of `oauth2.Config` the method sets. -/
structure OAuthConfig where
  ClientID : GoString
  AuthURL : GoString
  Scopes : List GoString
  RedirectURL : GoString

def githubScopes : List GoString := [lit "read:org"]

/-- The call `strings.TrimSuffix(s, "/")`. -/
def trimSlashSuffix (s : GoString) : GoString :=
  if s.getLast? = some 47 then s.dropLast else s

/-- GenerateAuthCodeURL generates an auth URL for the specified configuration.
`urlParse` is `url.Parse`; `authCodeURL cfg state` is
`cfg.AuthCodeURL(state, oauth2.ApprovalForce, oauth2.AccessTypeOnline)`. -/
def ProjectSingleSignOn_GitHub.GenerateAuthCodeURL (urlParse : GoString → Except Error URL)
    (authCodeURL : OAuthConfig → GoString → GoString) (p : ProjectSingleSignOn_GitHub)
    (project apiURL callbackPath state : GoString) : GoString × Option Error :=
  match urlParse p.BaseUrl with
  | .error err => ([], some err)
  | .ok u =>
    let cfg : OAuthConfig :=
      { ClientID := p.ClientId
        AuthURL := u.Scheme ++ lit "://" ++ u.Host ++ lit "/login/oauth/authorize"
        Scopes := githubScopes
        RedirectURL :=
          trimSlashSuffix apiURL ++ callbackPath ++ lit "?project=" ++ project }
    (authCodeURL cfg state, none)

/-- GenerateAuthCodeURL generates an auth URL for the specified configuration. -/
def ProjectSingleSignOn.GenerateAuthCodeURL {G : Type} (c : Consts)
    (urlParse : GoString → Except Error URL)
    (authCodeURL : OAuthConfig → GoString → GoString) (p : ProjectSingleSignOn G)
    (project apiURL callbackPath state : GoString) : GoString × Option Error :=
  if p.Provider = c.ProjectSingleSignOnProvider_GITHUB then
    match p.Github with
    | none => ([], some (.errorf "missing GitHub oauth in the SSO configuration" []))
    | some g => g.GenerateAuthCodeURL urlParse authCodeURL project apiURL callbackPath state
  else
    ([], some (.errorf "not implemented" []))

end model

namespace config

/-! ## The stage decoder: properties -/

theorem supported_cases {n : Stage} (h : n ∈ supportedStages) :
    n = StageWait ∨ n = StageWaitApproval ∨ n = StageAnalysis ∨ n = StageK8sPrimaryOut
    ∨ n = StageK8sStageOut ∨ n = StageK8sStageIn ∨ n = StageK8sBaselineOut
    ∨ n = StageK8sBaselineIn ∨ n = StageK8sTrafficRoute ∨ n = StageTerraformPlan
    ∨ n = StageTerraformApply := by
  simpa [supportedStages] using h

/-- The default case of the switch: what the decoder returns once the outer
record has parsed and its name has no case. -/
theorem UnmarshalJSON_default_case (dc : DurationCodec) (s : PipelineStage) (data : Json)
    (gs : genericPipelineStage) (hgs : decodeGeneric dc data = (gs, none))
    (hname : gs.Name ∉ supportedStages) :
    PipelineStage.UnmarshalJSON dc s data =
      ({ s with Name := gs.Name, Desc := gs.Desc, Timeout := gs.Timeout },
        some (Error.errorf ("unsupported stage name: " ++ gs.Name))) := by
  simp only [supportedStages, List.mem_cons, List.mem_singleton, not_or, List.not_mem_nil,
    or_false] at hname
  obtain ⟨h1, h2, h3, h4, h5, h6, h7, h8, h9, h10, h11⟩ := hname
  simp only [PipelineStage.UnmarshalJSON, hgs]
  simp only [h1, h2, h3, h4, h5, h6, h7, h8, h9, h10, h11, if_false]

/-- When the outer record fails to parse, the decoder returns that error and
leaves the receiver as it was. -/
theorem UnmarshalJSON_outer_error (dc : DurationCodec) (s : PipelineStage) (data : Json)
    (gs : genericPipelineStage) (err : Error) (hgs : decodeGeneric dc data = (gs, some err)) :
    PipelineStage.UnmarshalJSON dc s data = (s, some err) := by
  simp only [PipelineStage.UnmarshalJSON, hgs]

/-- C1: a stage record whose name is not one of the eleven supported names (the
empty or missing name included) is rejected with the error
"unsupported stage name: <name>", and no option field is populated: the option
fields of the receiver are left as they were. -/
theorem UnmarshalJSON_unsupported_name (dc : DurationCodec) (s : PipelineStage) (data : Json)
    (gs : genericPipelineStage) (hgs : decodeGeneric dc data = (gs, none))
    (hname : gs.Name ∉ supportedStages) :
    PipelineStage.UnmarshalJSON dc s data =
      ({ s with Name := gs.Name, Desc := gs.Desc, Timeout := gs.Timeout },
        some (Error.errorf ("unsupported stage name: " ++ gs.Name)))
    ∧ (PipelineStage.UnmarshalJSON dc s data).1.populated = s.populated := by
  rw [UnmarshalJSON_default_case dc s data gs hgs hname]
  exact ⟨rfl, rfl⟩

/-- C1 at the record `{"name": "DEPLOY", "with": {"duration": 5}}` and at the
record `{}`, which has no name. -/
theorem UnmarshalJSON_unsupported_name_witness :
    (decodeGeneric nanosCodec
        (.obj [("name", .str "DEPLOY"), ("with", .obj [("duration", .num 5)])])
      = ({ Name := "DEPLOY", With := some (.obj [("duration", .num 5)]) }, none)
    ∧ "DEPLOY" ∉ supportedStages
    ∧ PipelineStage.UnmarshalJSON nanosCodec {}
        (.obj [("name", .str "DEPLOY"), ("with", .obj [("duration", .num 5)])])
      = ({ Name := "DEPLOY" }, some (Error.errorf "unsupported stage name: DEPLOY"))
    ∧ (PipelineStage.UnmarshalJSON nanosCodec {}
        (.obj [("name", .str "DEPLOY"), ("with", .obj [("duration", .num 5)])])).1.populated
      = [])
    ∧ (decodeGeneric nanosCodec (.obj []) = ({}, none)
    ∧ "" ∉ supportedStages
    ∧ PipelineStage.UnmarshalJSON nanosCodec {} (.obj [])
      = ({}, some (Error.errorf "unsupported stage name: "))
    ∧ (PipelineStage.UnmarshalJSON nanosCodec {} (.obj [])).1.populated = []) :=
  ⟨⟨rfl, by decide,
    UnmarshalJSON_unsupported_name nanosCodec {}
      (.obj [("name", .str "DEPLOY"), ("with", .obj [("duration", .num 5)])])
      { Name := "DEPLOY", With := some (.obj [("duration", .num 5)]) } rfl (by decide)⟩,
   ⟨rfl, by decide, UnmarshalJSON_unsupported_name nanosCodec {} (.obj []) {} rfl (by decide)⟩⟩

/-- C2: decoding a stage record with a supported name into a fresh
`PipelineStage` populates exactly one option field, the one of the stage named,
and leaves the ten others nil; the name, description and timeout are those of the
record. This holds whether or not the payload is well-formed. -/
theorem UnmarshalJSON_populates_exactly_one (dc : DurationCodec) (data : Json)
    (gs : genericPipelineStage) (hgs : decodeGeneric dc data = (gs, none))
    (hname : gs.Name ∈ supportedStages) :
    (PipelineStage.UnmarshalJSON dc {} data).1.populated = [gs.Name]
    ∧ (PipelineStage.UnmarshalJSON dc {} data).1.Name = gs.Name
    ∧ (PipelineStage.UnmarshalJSON dc {} data).1.Desc = gs.Desc
    ∧ (PipelineStage.UnmarshalJSON dc {} data).1.Timeout = gs.Timeout := by
  rcases supported_cases hname with h | h | h | h | h | h | h | h | h | h | h <;>
    simp [PipelineStage.UnmarshalJSON, hgs, h, PipelineStage.populated, StageWait,
      StageWaitApproval, StageAnalysis, StageK8sPrimaryOut, StageK8sStageOut, StageK8sStageIn,
      StageK8sBaselineOut, StageK8sBaselineIn, StageK8sTrafficRoute, StageTerraformPlan,
      StageTerraformApply]

/-- C2 at the record `{"name": "WAIT", "with": {"duration": 5}}`. -/
theorem UnmarshalJSON_populates_exactly_one_witness :
    decodeGeneric nanosCodec waitRecord
      = ({ Name := "WAIT", With := some (.obj [("duration", .num 5)]) }, none)
    ∧ "WAIT" ∈ supportedStages
    ∧ (PipelineStage.UnmarshalJSON nanosCodec {} waitRecord).1.populated = ["WAIT"]
    ∧ (PipelineStage.UnmarshalJSON nanosCodec {} waitRecord).1.Name = "WAIT"
    ∧ (PipelineStage.UnmarshalJSON nanosCodec {} waitRecord).1.Desc = ""
    ∧ (PipelineStage.UnmarshalJSON nanosCodec {} waitRecord).1.Timeout = 0 :=
  ⟨rfl, by decide,
    UnmarshalJSON_populates_exactly_one nanosCodec waitRecord
      { Name := "WAIT", With := some (.obj [("duration", .num 5)]) } rfl (by decide)⟩

/-- C3: for every supported stage name, a record whose `with` payload is absent
or empty decodes without error, and the one option field populated, that of the
stage named, holds the zero value of its type: a WAIT stage gets duration 0, a
K8S_TRAFFIC_ROUTE stage target "" and primary = stage = baseline = 0, an ANALYSIS
stage duration, threshold and restart threshold 0 and nil metrics, logs and
https. -/
theorem UnmarshalJSON_empty_payload_zero_value (dc : DurationCodec) (data : Json)
    (gs : genericPipelineStage) (hgs : decodeGeneric dc data = (gs, none))
    (hname : gs.Name ∈ supportedStages) (hwith : emptyPayload gs.With) :
    (PipelineStage.UnmarshalJSON dc {} data).2 = none
    ∧ (PipelineStage.UnmarshalJSON dc {} data).1.populated = [gs.Name]
    ∧ (PipelineStage.UnmarshalJSON dc {} data).1.zeroOptions
        = (PipelineStage.UnmarshalJSON dc {} data).1
    ∧ (gs.Name = StageWait →
        (PipelineStage.UnmarshalJSON dc {} data).1.WaitStageOptions = some { Duration := 0 })
    ∧ (gs.Name = StageK8sTrafficRoute →
        (PipelineStage.UnmarshalJSON dc {} data).1.K8sTrafficRouteStageOptions
          = some { Target := "", Primary := 0, Stage := 0, Baseline := 0 })
    ∧ (gs.Name = StageAnalysis →
        (PipelineStage.UnmarshalJSON dc {} data).1.AnalysisStageOptions
          = some { Duration := 0, Threshold := 0, RestartThreshold := 0, Metrics := none,
                   Logs := none, Https := none }) := by
  rcases hwith with hw | hw | hw <;>
  rcases supported_cases hname with h | h | h | h | h | h | h | h | h | h | h <;>
    simp [PipelineStage.UnmarshalJSON, hgs, h, hw, PipelineStage.populated,
      PipelineStage.zeroOptions, unmarshalWith, jsonUnmarshal, decodeStruct, Dec.err, StageWait,
      StageWaitApproval, StageAnalysis, StageK8sPrimaryOut, StageK8sStageOut, StageK8sStageIn,
      StageK8sBaselineOut, StageK8sBaselineIn, StageK8sTrafficRoute, StageTerraformPlan,
      StageTerraformApply]

/-- C3 at the record `{"name": "ANALYSIS"}`, whose payload is absent. -/
theorem UnmarshalJSON_empty_payload_zero_value_witness :
    decodeGeneric nanosCodec analysisRecord = ({ Name := "ANALYSIS" }, none)
    ∧ "ANALYSIS" ∈ supportedStages
    ∧ emptyPayload none
    ∧ (PipelineStage.UnmarshalJSON nanosCodec {} analysisRecord).2 = none
    ∧ (PipelineStage.UnmarshalJSON nanosCodec {} analysisRecord).1.populated = ["ANALYSIS"]
    ∧ (PipelineStage.UnmarshalJSON nanosCodec {} analysisRecord).1.zeroOptions
        = (PipelineStage.UnmarshalJSON nanosCodec {} analysisRecord).1
    ∧ ("ANALYSIS" = StageWait →
        (PipelineStage.UnmarshalJSON nanosCodec {} analysisRecord).1.WaitStageOptions
          = some { Duration := 0 })
    ∧ ("ANALYSIS" = StageK8sTrafficRoute →
        (PipelineStage.UnmarshalJSON nanosCodec {} analysisRecord).1.K8sTrafficRouteStageOptions
          = some { Target := "", Primary := 0, Stage := 0, Baseline := 0 })
    ∧ ("ANALYSIS" = StageAnalysis →
        (PipelineStage.UnmarshalJSON nanosCodec {} analysisRecord).1.AnalysisStageOptions
          = some { Duration := 0, Threshold := 0, RestartThreshold := 0, Metrics := none,
                   Logs := none, Https := none }) :=
  ⟨rfl, by decide, Or.inl rfl,
    UnmarshalJSON_empty_payload_zero_value nanosCodec analysisRecord { Name := "ANALYSIS" } rfl
      (by decide) (Or.inl rfl)⟩

/-! ## Validation -/

/-- C5, as stated, fails: the K8S_TRAFFIC_ROUTE record with primary, stage and
baseline 40 and no target decodes to `overfullStage`, whose percentages sum to
120, and validation of a Kubernetes application whose pipeline holds that stage
returns nil. -/
theorem Validate_accepts_sum_of_120 :
    PipelineStage.UnmarshalJSON nanosCodec {} overfullRecord = (overfullStage, none)
    ∧ overfullStage.K8sTrafficRouteStageOptions
        = some { Target := "", Primary := 40, Stage := 40, Baseline := 40 }
    ∧ (40 : Int) + 40 + 40 ≠ 100
    ∧ overfullSpec.Pipeline = some { Stages := some [overfullStage] }
    ∧ overfullSpec.Validate = none :=
  ⟨by decide, rfl, by decide, rfl, rfl⟩

/-- C5, amended: `KubernetesAppSpec.Validate` makes no check of the traffic
percentages; it returns nil for every Kubernetes application spec, so validation
succeeds when target is unset and the sum is 100, when target is set whatever the
sum, and also when target is unset and the sum is not 100. -/
theorem KubernetesAppSpec_Validate_nil (s : KubernetesAppSpec) :
    s.Validate = none := rfl

/-- C9: `TerraformAppSpec.Validate` returns a non-nil error if and only if
`Destination` is the empty string; the result does not depend on `Input` or
`Pipeline`. -/
theorem TerraformAppSpec_Validate_iff (s : TerraformAppSpec)
    (input : Option TerraformAppInput) (pipeline : Option AppPipeline) :
    (s.Validate ≠ none ↔ s.Destination = "")
    ∧ (s.Destination = "" → s.Validate
        = some (Error.errorf "spec.destination for terraform application is required"))
    ∧ TerraformAppSpec.Validate { s with Input := input, Pipeline := pipeline } = s.Validate := by
  unfold TerraformAppSpec.Validate
  by_cases h : s.Destination = "" <;> simp [h]

end config

namespace model

/-! ## Updating the GitHub configuration -/

/-- Every field of the result of `Update`: seven fields take the input's value
of the same field when it is non-empty and keep their value otherwise; `BaseUrl`
takes the input's `ClientSecret` when the input's `BaseUrl` is non-empty. -/
theorem GitHub_Update_fields (p input : ProjectSingleSignOn_GitHub) :
    (p.Update input).ClientId = (if input.ClientId ≠ [] then input.ClientId else p.ClientId)
    ∧ (p.Update input).ClientSecret
        = (if input.ClientSecret ≠ [] then input.ClientSecret else p.ClientSecret)
    ∧ (p.Update input).BaseUrl = (if input.BaseUrl ≠ [] then input.ClientSecret else p.BaseUrl)
    ∧ (p.Update input).UploadUrl
        = (if input.UploadUrl ≠ [] then input.UploadUrl else p.UploadUrl)
    ∧ (p.Update input).Org = (if input.Org ≠ [] then input.Org else p.Org)
    ∧ (p.Update input).AdminTeam
        = (if input.AdminTeam ≠ [] then input.AdminTeam else p.AdminTeam)
    ∧ (p.Update input).EditorTeam
        = (if input.EditorTeam ≠ [] then input.EditorTeam else p.EditorTeam)
    ∧ (p.Update input).ViewerTeam
        = (if input.ViewerTeam ≠ [] then input.ViewerTeam else p.ViewerTeam) := by
  simp only [ProjectSingleSignOn_GitHub.Update, apply_ite ProjectSingleSignOn_GitHub.ClientId,
    apply_ite ProjectSingleSignOn_GitHub.ClientSecret,
    apply_ite ProjectSingleSignOn_GitHub.BaseUrl, apply_ite ProjectSingleSignOn_GitHub.UploadUrl,
    apply_ite ProjectSingleSignOn_GitHub.Org, apply_ite ProjectSingleSignOn_GitHub.AdminTeam,
    apply_ite ProjectSingleSignOn_GitHub.EditorTeam,
    apply_ite ProjectSingleSignOn_GitHub.ViewerTeam, ite_self, and_self]

/-- C6 (the code at the failing input): updating an empty configuration with
client secret "s3cret" and base URL "https://ghe.example.com" leaves the base URL
equal to the client secret, not to the input's base URL. -/
theorem GitHub_Update_BaseUrl_gets_ClientSecret :
    (ProjectSingleSignOn_GitHub.Update {}
        { ClientSecret := lit "s3cret", BaseUrl := lit "https://ghe.example.com" }).BaseUrl
      = lit "s3cret"
    ∧ (ProjectSingleSignOn_GitHub.Update {}
        { ClientSecret := lit "s3cret", BaseUrl := lit "https://ghe.example.com" }).BaseUrl
      ≠ lit "https://ghe.example.com" := by
  decide

/-! ## Authentication -/

theorem lor_eq_zero_iff (m n : Nat) : m ||| n = 0 ↔ m = 0 ∧ n = 0 := by
  constructor
  · intro h
    have hb : ∀ i, (m ||| n).testBit i = false := by intro i; simp [h]
    constructor
    · apply Nat.eq_of_testBit_eq
      intro i
      have := hb i
      simp only [Nat.testBit_or, Bool.or_eq_false_iff] at this
      simp [this.1]
    · apply Nat.eq_of_testBit_eq
      intro i
      have := hb i
      simp only [Nat.testBit_or, Bool.or_eq_false_iff] at this
      simp [this.2]
  · rintro ⟨rfl, rfl⟩
    rfl

/-- The loop of `ConstantTimeCompare` ends with 0 exactly when it started with 0
and the two slices are equal. -/
theorem foldl_diff_eq_zero_iff (x y : List UInt8) (hlen : x.length = y.length) (v : Nat) :
    (x.zip y).foldl (fun v ab => v ||| (ab.1.toNat ^^^ ab.2.toNat)) v = 0 ↔ v = 0 ∧ x = y := by
  induction x generalizing y v with
  | nil =>
    cases y with
    | nil => simp
    | cons b y => simp at hlen
  | cons a x ih =>
    cases y with
    | nil => simp at hlen
    | cons b y =>
      simp only [List.length_cons, Nat.add_right_cancel_iff] at hlen
      simp only [List.zip_cons_cons, List.foldl_cons, ih y hlen, lor_eq_zero_iff,
        Nat.xor_eq_zero, List.cons.injEq]
      constructor
      · rintro ⟨⟨hv, hab⟩, hxy⟩
        exact ⟨hv, UInt8.ext hab, hxy⟩
      · rintro ⟨hv, hab, hxy⟩
        exact ⟨⟨hv, congrArg _ hab⟩, hxy⟩

/-- The accumulator of the loop stays a byte. -/
theorem foldl_diff_lt (l : List (UInt8 × UInt8)) (v : Nat) (hv : v < 2 ^ 8) :
    l.foldl (fun v ab => v ||| (ab.1.toNat ^^^ ab.2.toNat)) v < 2 ^ 8 := by
  induction l generalizing v with
  | nil => simpa using hv
  | cons ab l ih =>
    simp only [List.foldl_cons]
    apply ih
    exact Nat.or_lt_two_pow hv (Nat.xor_lt_two_pow (UInt8.toNat_lt _) (UInt8.toNat_lt _))

theorem ConstantTimeByteEq_zero (v : Nat) (hv : v < 2 ^ 8) :
    ConstantTimeByteEq v 0 = 1 ↔ v = 0 := by
  unfold ConstantTimeByteEq
  simp only [Nat.xor_zero, Nat.shiftRight_eq_div_pow]
  constructor
  · intro h
    by_contra hne
    have : (v + 2 ^ 32 - 1) % 2 ^ 32 / 2 ^ 31 = 0 := by omega
    rw [this] at h
    simp at h
  · rintro rfl
    decide

/-- The contract of `subtle.ConstantTimeCompare`: it returns 1 exactly when the
two slices have equal contents. -/
theorem ConstantTimeCompare_eq_one_iff (x y : List UInt8) :
    ConstantTimeCompare x y = 1 ↔ x = y := by
  unfold ConstantTimeCompare
  by_cases hlen : x.length = y.length
  · simp only [hlen, ne_eq, not_true_eq_false, if_false]
    rw [ConstantTimeByteEq_zero _ (foldl_diff_lt _ 0 (by decide)),
      foldl_diff_eq_zero_iff x y hlen]
    simp
  · simp only [ne_eq, hlen, not_false_eq_true, if_true]
    constructor
    · intro h; simp at h
    · rintro rfl; exact absurd rfl hlen

/-- C7: `Auth` returns nil if and only if the username is non-empty and equal to
the stored username, the password is non-empty, and the bcrypt comparison of the
stored hash with the password succeeds. In particular an empty username is an
error even when the stored username is empty too, and an empty password is an
error whatever the stored hash. -/
theorem Auth_nil_iff (bcryptCompare : GoString → GoString → Option Error)
    (p : ProjectStaticUser) (username password : GoString) :
    (p.Auth bcryptCompare username password = none ↔
      username ≠ [] ∧ username = p.Username ∧ password ≠ []
        ∧ bcryptCompare p.PasswordHash password = none)
    ∧ p.Auth bcryptCompare [] password = some (Error.errorf "username is empty" [])
    ∧ p.Auth bcryptCompare username [] ≠ none := by
  refine ⟨?_, ?_, ?_⟩
  · unfold ProjectStaticUser.Auth
    simp only [ne_eq, ConstantTimeCompare_eq_one_iff]
    by_cases hu : username = []
    · simp [hu]
    · by_cases hc : p.Username = username
      · by_cases hp : password = []
        · simp [hu, hc, hp]
        · cases hb : bcryptCompare p.PasswordHash password <;> simp [hu, hc, hp, hb]
      · have hc2 : ¬ username = p.Username := fun h => hc h.symm
        simp [hu, hc, hc2]
  · simp [ProjectStaticUser.Auth]
  · unfold ProjectStaticUser.Auth
    by_cases hu : username = []
    · simp [hu]
    · by_cases hc : ConstantTimeCompare p.Username username = 1 <;> simp [hu, hc]

/-! ## Redaction -/

/-- C8: `Project.RedactSensitiveData` sets the static admin's password hash and
the GitHub client id and client secret to the redacted message, where those
records are present, and changes nothing else: the username, the provider, the
other GitHub fields, the Google configuration and the rest of the project are as
before, and a nil record stays nil. -/
theorem RedactSensitiveData_frame {G R : Type} (c : Consts) (p : Project G R) :
    (p.RedactSensitiveData c).StaticAdmin
      = p.StaticAdmin.map (fun u => { u with PasswordHash := c.redactedMessage })
    ∧ (p.RedactSensitiveData c).Sso
      = p.Sso.map (fun sso =>
          { sso with
            Github := sso.Github.map (fun g =>
              { g with ClientId := c.redactedMessage, ClientSecret := c.redactedMessage }) })
    ∧ (p.RedactSensitiveData c).rest = p.rest := by
  obtain ⟨admin, sso, rest⟩ := p
  cases admin <;> cases sso with
  | none => simp [Project.RedactSensitiveData, ProjectStaticUser.RedactSensitiveData]
  | some sso =>
    obtain ⟨prov, gh, goog⟩ := sso
    cases gh <;>
      simp [Project.RedactSensitiveData, ProjectStaticUser.RedactSensitiveData,
        ProjectSingleSignOn.RedactSensitiveData, ProjectSingleSignOn_GitHub.RedactSensitiveData]

/-! ## The auth code URL -/

/-- C10: `ProjectSingleSignOn.GenerateAuthCodeURL` returns an empty URL and the
error "not implemented" for every provider other than GITHUB, an empty URL and
the error "missing GitHub oauth in the SSO configuration" for the provider GITHUB
without a GitHub configuration, and otherwise exactly what the GitHub
configuration's `GenerateAuthCodeURL` returns for the same project, API URL,
callback path and state. -/
theorem GenerateAuthCodeURL_dispatch {G : Type} (c : Consts)
    (urlParse : GoString → Except Error URL) (authCodeURL : OAuthConfig → GoString → GoString)
    (p : ProjectSingleSignOn G) (project apiURL callbackPath state : GoString) :
    (p.Provider ≠ c.ProjectSingleSignOnProvider_GITHUB →
      p.GenerateAuthCodeURL c urlParse authCodeURL project apiURL callbackPath state
        = ([], some (Error.errorf "not implemented" [])))
    ∧ (p.Provider = c.ProjectSingleSignOnProvider_GITHUB → p.Github = none →
      p.GenerateAuthCodeURL c urlParse authCodeURL project apiURL callbackPath state
        = ([], some (Error.errorf "missing GitHub oauth in the SSO configuration" [])))
    ∧ (∀ g : ProjectSingleSignOn_GitHub,
      p.Provider = c.ProjectSingleSignOnProvider_GITHUB → p.Github = some g →
      p.GenerateAuthCodeURL c urlParse authCodeURL project apiURL callbackPath state
        = g.GenerateAuthCodeURL urlParse authCodeURL project apiURL callbackPath state) := by
  refine ⟨?_, ?_, ?_⟩
  · intro h
    simp [ProjectSingleSignOn.GenerateAuthCodeURL, h]
  · intro h hg
    simp [ProjectSingleSignOn.GenerateAuthCodeURL, h, hg]
  · intro g h hg
    simp [ProjectSingleSignOn.GenerateAuthCodeURL, h, hg]

end model

namespace config

/-! ## Defaults of the rollout options -/

/-- A property of the Go value that every member's decoding preserves holds
after the object is decoded. -/
theorem decodeStruct_obj_invariant {α : Type} (P : α → Prop) (goType : String)
    (field : String → Json → α → Dec α) (members : List (String × Json)) (cur : α)
    (h0 : P cur) (hstep : ∀ m ∈ members, ∀ a, P a → P (field m.1 m.2 a).val) :
    P (decodeStruct goType field (.obj members) cur).val := by
  simp only [decodeStruct]
  suffices h : ∀ (acc : Dec α), P acc.val →
      P (members.foldl (fun acc m => acc.step (field m.1 m.2)) acc).val from h _ h0
  induction members with
  | nil => intro acc h; simpa using h
  | cons m ms ih =>
    intro acc hacc
    simp only [List.foldl_cons]
    apply ih (fun m' hm' => hstep m' (List.mem_cons_of_mem _ hm'))
    unfold Dec.step
    cases hf : acc.fatal with
    | some e => simpa using hacc
    | none => exact hstep m (List.mem_cons_self _ _) _ hacc

/-- Decoding a payload into a fresh option record: a property of the zero record
that every member of the payload preserves holds of the result. -/
theorem unmarshalWith_invariant {α : Type} (P : α → Prop) (goType : String)
    (field : String → Json → α → Dec α) (w : RawMessage) (zero : α) (h0 : P zero)
    (hstep : ∀ members, w = some (.obj members) →
      ∀ m ∈ members, ∀ a, P a → P (field m.1 m.2 a).val) :
    P (unmarshalWith (decodeStruct goType field) w zero).1 := by
  cases w with
  | none => simpa [unmarshalWith] using h0
  | some j =>
    cases j with
    | obj members =>
      simp only [unmarshalWith, jsonUnmarshal]
      exact decodeStruct_obj_invariant P goType field members zero h0 (hstep members rfl)
    | _ => simpa [unmarshalWith, jsonUnmarshal, decodeStruct] using h0

theorem StageOut_field_Suffix (key : String) (v : Json) (a : K8sStageOutStageOptions)
    (hkey : equalFold key "Suffix" = false) :
    (K8sStageOutStageOptions.field key v a).val.Suffix = a.Suffix := by
  unfold K8sStageOutStageOptions.field
  split_ifs <;> simp_all [Dec.map, Dec.skip]

theorem StageOut_field_WithService (key : String) (v : Json) (a : K8sStageOutStageOptions)
    (hkey : equalFold key "WithService" = false) :
    (K8sStageOutStageOptions.field key v a).val.WithService = a.WithService := by
  unfold K8sStageOutStageOptions.field
  split_ifs <;> simp_all [Dec.map, Dec.skip]

theorem BaselineOut_field_Suffix (key : String) (v : Json) (a : K8sBaselineOutStageOptions)
    (hkey : equalFold key "Suffix" = false) :
    (K8sBaselineOutStageOptions.field key v a).val.Suffix = a.Suffix := by
  unfold K8sBaselineOutStageOptions.field
  split_ifs <;> simp_all [Dec.map, Dec.skip]

theorem BaselineOut_field_WithService (key : String) (v : Json) (a : K8sBaselineOutStageOptions)
    (hkey : equalFold key "WithService" = false) :
    (K8sBaselineOutStageOptions.field key v a).val.WithService = a.WithService := by
  unfold K8sBaselineOutStageOptions.field
  split_ifs <;> simp_all [Dec.map, Dec.skip]

/-- A payload that does not set the member `name` has no member selecting it. -/
theorem not_setsMember {name : String} {w : RawMessage} (h : setsMember name w = false)
    (members : List (String × Json)) (hw : w = some (.obj members)) :
    ∀ m ∈ members, equalFold m.1 name = false := by
  subst hw
  simpa [setsMember] using h

/-- C11, as stated, fails: the K8S_STAGE_OUT record with only weight 10 decodes
without error to options whose suffix is the empty string, not "stage", and the
K8S_BASELINE_OUT record with only weight 10 to options whose suffix is the empty
string, not "baseline"; this is so for every `Duration` codec. -/
theorem rollout_suffix_not_defaulted :
    PipelineStage.UnmarshalJSON nanosCodec {} stageOutRecord
      = ({ Name := "K8S_STAGE_OUT"
           K8sStageOutStageOptions :=
            some { Weight := 10, Suffix := "", WithService := false } }, none)
    ∧ (PipelineStage.UnmarshalJSON nanosCodec {} stageOutRecord).1.K8sStageOutStageOptions.map
        (·.Suffix) ≠ some "stage"
    ∧ PipelineStage.UnmarshalJSON nanosCodec {} baselineOutRecord
      = ({ Name := "K8S_BASELINE_OUT"
           K8sBaselineOutStageOptions :=
            some { Weight := 10, Suffix := "", WithService := false } }, none)
    ∧ (PipelineStage.UnmarshalJSON nanosCodec {}
        baselineOutRecord).1.K8sBaselineOutStageOptions.map (·.Suffix) ≠ some "baseline"
    ∧ (∀ dc : DurationCodec,
        (PipelineStage.UnmarshalJSON dc {} stageOutRecord).1.K8sStageOutStageOptions.map
          (·.Suffix) = some ""
        ∧ (PipelineStage.UnmarshalJSON dc {}
            baselineOutRecord).1.K8sBaselineOutStageOptions.map (·.Suffix) = some "") :=
  ⟨by decide, by decide, by decide, by decide, fun _ => ⟨rfl, rfl⟩⟩

/-- C11, amended: the decoder applies no default to the rollout options. For a
K8S_STAGE_OUT stage and for a K8S_BASELINE_OUT stage decoded from a record that
does not set suffix, the resulting options' suffix is the empty string (the zero
value); in both cases withService is false when the record does not set it. -/
theorem rollout_unset_fields_zero (dc : DurationCodec) (data : Json)
    (gs : genericPipelineStage) (hgs : decodeGeneric dc data = (gs, none)) :
    (gs.Name = StageK8sStageOut → setsMember "Suffix" gs.With = false →
      (PipelineStage.UnmarshalJSON dc {} data).1.K8sStageOutStageOptions.map (·.Suffix)
        = some "")
    ∧ (gs.Name = StageK8sStageOut → setsMember "WithService" gs.With = false →
      (PipelineStage.UnmarshalJSON dc {} data).1.K8sStageOutStageOptions.map (·.WithService)
        = some false)
    ∧ (gs.Name = StageK8sBaselineOut → setsMember "Suffix" gs.With = false →
      (PipelineStage.UnmarshalJSON dc {} data).1.K8sBaselineOutStageOptions.map (·.Suffix)
        = some "")
    ∧ (gs.Name = StageK8sBaselineOut → setsMember "WithService" gs.With = false →
      (PipelineStage.UnmarshalJSON dc {} data).1.K8sBaselineOutStageOptions.map
        (·.WithService) = some false) := by
  refine ⟨?_, ?_, ?_, ?_⟩
  · intro h hset
    simp +decide only [PipelineStage.UnmarshalJSON, hgs, h, StageWait, StageWaitApproval,
      StageAnalysis, StageK8sPrimaryOut, StageK8sStageOut, if_true, if_false, Option.map_some',
      Option.some.injEq]
    exact unmarshalWith_invariant (fun a => a.Suffix = "") _ _ gs.With {} rfl
      (fun members hw m hm a ha =>
        (StageOut_field_Suffix m.1 m.2 a (not_setsMember hset members hw m hm)).trans ha)
  · intro h hset
    simp +decide only [PipelineStage.UnmarshalJSON, hgs, h, StageWait, StageWaitApproval,
      StageAnalysis, StageK8sPrimaryOut, StageK8sStageOut, if_true, if_false, Option.map_some',
      Option.some.injEq]
    exact unmarshalWith_invariant (fun a => a.WithService = false) _ _ gs.With {} rfl
      (fun members hw m hm a ha =>
        (StageOut_field_WithService m.1 m.2 a (not_setsMember hset members hw m hm)).trans ha)
  · intro h hset
    simp +decide only [PipelineStage.UnmarshalJSON, hgs, h, StageWait, StageWaitApproval,
      StageAnalysis, StageK8sPrimaryOut, StageK8sStageOut, StageK8sStageIn,
      StageK8sBaselineOut, if_true, if_false, Option.map_some', Option.some.injEq]
    exact unmarshalWith_invariant (fun a => a.Suffix = "") _ _ gs.With {} rfl
      (fun members hw m hm a ha =>
        (BaselineOut_field_Suffix m.1 m.2 a (not_setsMember hset members hw m hm)).trans ha)
  · intro h hset
    simp +decide only [PipelineStage.UnmarshalJSON, hgs, h, StageWait, StageWaitApproval,
      StageAnalysis, StageK8sPrimaryOut, StageK8sStageOut, StageK8sStageIn,
      StageK8sBaselineOut, if_true, if_false, Option.map_some', Option.some.injEq]
    exact unmarshalWith_invariant (fun a => a.WithService = false) _ _ gs.With {} rfl
      (fun members hw m hm a ha =>
        (BaselineOut_field_WithService m.1 m.2 a
          (not_setsMember hset members hw m hm)).trans ha)

/-- C11, amended, at the record `{"name": "K8S_STAGE_OUT", "with": {"weight":
10}}`: the suffix is empty and withService is false. -/
theorem rollout_unset_fields_zero_witness :
    decodeGeneric nanosCodec stageOutRecord
      = ({ Name := "K8S_STAGE_OUT", With := some (.obj [("weight", .num 10)]) }, none)
    ∧ setsMember "Suffix" (some (.obj [("weight", .num 10)])) = false
    ∧ setsMember "WithService" (some (.obj [("weight", .num 10)])) = false
    ∧ (PipelineStage.UnmarshalJSON nanosCodec {} stageOutRecord).1.K8sStageOutStageOptions.map
        (·.Suffix) = some ""
    ∧ (PipelineStage.UnmarshalJSON nanosCodec {} stageOutRecord).1.K8sStageOutStageOptions.map
        (·.WithService) = some false :=
  ⟨rfl, by decide, by decide,
    (rollout_unset_fields_zero nanosCodec stageOutRecord
      { Name := "K8S_STAGE_OUT", With := some (.obj [("weight", .num 10)]) } rfl).1 rfl
      (by decide),
    (rollout_unset_fields_zero nanosCodec stageOutRecord
      { Name := "K8S_STAGE_OUT", With := some (.obj [("weight", .num 10)]) } rfl).2.1 rfl
      (by decide)⟩

/-! ## Errors of the stage decoder -/

/-- C13: for a stage record with a supported name, `UnmarshalJSON` returns an
error if and only if the outer record fails to parse or the `with` payload is
present and fails to parse into the option type selected by the name. When the
outer record parses, the error returned is exactly the payload parser's error (so
a malformed payload is never accepted), and nil when the payload is absent; when
the outer record fails to parse, its error is returned and the receiver is left
as it was. -/
theorem UnmarshalJSON_error_iff (dc : DurationCodec) (s : PipelineStage) (data : Json)
    (gs : genericPipelineStage) (e : Option Error) (hgs : decodeGeneric dc data = (gs, e))
    (hname : gs.Name ∈ supportedStages) :
    ((PipelineStage.UnmarshalJSON dc s data).2 ≠ none ↔
      e ≠ none ∨ ∃ payload, gs.With = some payload ∧ payloadError dc gs.Name payload ≠ none)
    ∧ (e = none → ∀ payload, gs.With = some payload →
        (PipelineStage.UnmarshalJSON dc s data).2 = payloadError dc gs.Name payload)
    ∧ (e = none → gs.With = none → (PipelineStage.UnmarshalJSON dc s data).2 = none)
    ∧ (∀ err, e = some err → PipelineStage.UnmarshalJSON dc s data = (s, some err)) := by
  cases e with
  | some err => simp [PipelineStage.UnmarshalJSON, hgs]
  | none =>
    rcases hw : gs.With with _ | payload <;>
    rcases supported_cases hname with h | h | h | h | h | h | h | h | h | h | h <;>
      simp +decide [PipelineStage.UnmarshalJSON, hgs, h, hw, payloadError, unmarshalWith,
        StageWait, StageWaitApproval, StageAnalysis, StageK8sPrimaryOut, StageK8sStageOut,
        StageK8sStageIn, StageK8sBaselineOut, StageK8sBaselineIn, StageK8sTrafficRoute,
        StageTerraformPlan, StageTerraformApply]

/-- C13 at the record `{"name": "WAIT", "with": {"duration": "soon"}}`: the outer
record parses, the payload does not, and the payload parser's error is what
`UnmarshalJSON` returns. -/
theorem UnmarshalJSON_error_iff_witness :
    decodeGeneric nanosCodec badWaitRecord
      = ({ Name := "WAIT", With := some (.obj [("duration", .str "soon")]) }, none)
    ∧ "WAIT" ∈ supportedStages
    ∧ payloadError nanosCodec "WAIT" (.obj [("duration", .str "soon")])
        = some (Error.unmarshalType "string" "int")
    ∧ (((PipelineStage.UnmarshalJSON nanosCodec {} badWaitRecord).2 ≠ none ↔
        (none : Option Error) ≠ none ∨ ∃ payload,
          some (Json.obj [("duration", .str "soon")]) = some payload
          ∧ payloadError nanosCodec "WAIT" payload ≠ none)
      ∧ ((none : Option Error) = none → ∀ payload,
          some (Json.obj [("duration", .str "soon")]) = some payload →
          (PipelineStage.UnmarshalJSON nanosCodec {} badWaitRecord).2
            = payloadError nanosCodec "WAIT" payload)
      ∧ ((none : Option Error) = none →
          some (Json.obj [("duration", .str "soon")]) = none →
          (PipelineStage.UnmarshalJSON nanosCodec {} badWaitRecord).2 = none)
      ∧ (∀ err, (none : Option Error) = some err →
          PipelineStage.UnmarshalJSON nanosCodec {} badWaitRecord = ({}, some err))) :=
  ⟨rfl, by decide, by decide,
    UnmarshalJSON_error_iff nanosCodec {} badWaitRecord
      { Name := "WAIT", With := some (.obj [("duration", .str "soon")]) } none rfl
      (by decide)⟩

/-! ## Decoding a pipeline: properties -/

/-- Decoding the elements of an array of stage records into a fresh slice: no
type mismatch is saved, the run is stopped exactly when some record fails to
decode, and otherwise the elements are the decoded records in order. -/
theorem decodeElems_stages (dc : DurationCodec) (records : List Json) :
    (decodeElems {} (PipelineStage.decode dc) records []).saved = none
    ∧ ((decodeElems {} (PipelineStage.decode dc) records []).fatal = none ↔
        ∀ r ∈ records, (PipelineStage.UnmarshalJSON dc {} r).2 = none)
    ∧ ((decodeElems {} (PipelineStage.decode dc) records []).fatal = none →
        (decodeElems {} (PipelineStage.decode dc) records []).val
          = records.map fun r => (PipelineStage.UnmarshalJSON dc {} r).1) := by
  induction records with
  | nil => simp [decodeElems]
  | cons r rs ih =>
    obtain ⟨ih1, ih2, ih3⟩ := ih
    cases hr : (PipelineStage.UnmarshalJSON dc {} r).2 with
    | some e =>
      simp [decodeElems, PipelineStage.decode, hr]
    | none =>
      simp only [decodeElems, PipelineStage.decode, hr, List.headD_nil, List.tail_nil]
      simp only [List.mem_cons, forall_eq_or_imp, hr, true_and, List.map_cons]
      refine ⟨ih1, ih2, ?_⟩
      intro h
      rw [ih3 h]

/-- Decoding the pipeline `{"stages": records}`: it succeeds exactly when every
record decodes, and then the stages are the decoded records in order. -/
theorem decodePipeline_stages (dc : DurationCodec) (records : List Json) :
    ((decodePipeline dc (.obj [("stages", .arr records)])).2 = none ↔
      ∀ r ∈ records, (PipelineStage.UnmarshalJSON dc {} r).2 = none)
    ∧ ((decodePipeline dc (.obj [("stages", .arr records)])).2 = none →
      (decodePipeline dc (.obj [("stages", .arr records)])).1.Stages
        = some (records.map fun r => (PipelineStage.UnmarshalJSON dc {} r).1)) := by
  obtain ⟨h1, h2, h3⟩ := decodeElems_stages dc records
  have hf : equalFold "stages" "stages" = true := by decide
  simp only [decodePipeline, jsonUnmarshal, decodeStruct, List.foldl_cons, List.foldl_nil,
    Dec.step, AppPipeline.field, hf, if_true, decodeSlice, Dec.map, Dec.err, Option.getD_none,
    h1]
  constructor
  · rw [← h2]
    cases (decodeElems {} (PipelineStage.decode dc) records []).fatal <;> simp
  · intro h
    have hfat : (decodeElems {} (PipelineStage.decode dc) records []).fatal = none := by
      cases hx : (decodeElems {} (PipelineStage.decode dc) records []).fatal with
      | none => rfl
      | some e => simp [hx] at h
    simp [h3 hfat]

/-- C14: decoding a pipeline from a list of stage records succeeds if and only
if every record decodes successfully; the stages then are the decodings of the
records in the same order, so there are as many stages as records and the i-th
stage is the decoding of the i-th record. A single record with an unsupported
stage name makes the whole pipeline fail to decode. -/
theorem pipeline_decode_all_or_nothing (dc : DurationCodec) (records : List Json) :
    ((decodePipeline dc (.obj [("stages", .arr records)])).2 = none ↔
      ∀ r ∈ records, (PipelineStage.UnmarshalJSON dc {} r).2 = none)
    ∧ ((decodePipeline dc (.obj [("stages", .arr records)])).2 = none →
      ∃ stages, (decodePipeline dc (.obj [("stages", .arr records)])).1.Stages = some stages
        ∧ stages = records.map (fun r => (PipelineStage.UnmarshalJSON dc {} r).1)
        ∧ stages.length = records.length
        ∧ ∀ i (h : i < records.length),
            stages[i]? = some (PipelineStage.UnmarshalJSON dc {} records[i]).1)
    ∧ (∀ r ∈ records, ∀ gs, decodeGeneric dc r = (gs, none) → gs.Name ∉ supportedStages →
      (decodePipeline dc (.obj [("stages", .arr records)])).2 ≠ none) := by
  obtain ⟨h1, h2⟩ := decodePipeline_stages dc records
  refine ⟨h1, ?_, ?_⟩
  · intro h
    refine ⟨_, h2 h, rfl, by simp, ?_⟩
    intro i hi
    simp [List.getElem?_map, List.getElem?_eq_getElem hi]
  · intro r hr gs hgs hname hnone
    have hok := (h1.1 hnone) r hr
    rw [UnmarshalJSON_default_case dc {} r gs hgs hname] at hok
    simp at hok

/-- C14 at the pipelines `{"stages": [WAIT record, K8S_TRAFFIC_ROUTE record]}`,
which decodes to the two stages in that order, and `{"stages": [WAIT record,
DEPLOY record]}`, which fails to decode. -/
theorem pipeline_decode_all_or_nothing_witness :
    decodePipeline nanosCodec (.obj [("stages", .arr [waitRecord, trafficRecord])])
      = ({ Stages := some [waitStage, trafficStage] }, none)
    ∧ (decodePipeline nanosCodec (.obj [("stages", .arr [waitRecord, deployRecord])])).2
      = some (Error.errorf "unsupported stage name: DEPLOY")
    ∧ ((decodePipeline nanosCodec (.obj [("stages", .arr [waitRecord, trafficRecord])])).2
        = none ↔
      ∀ r ∈ [waitRecord, trafficRecord], (PipelineStage.UnmarshalJSON nanosCodec {} r).2 = none) :=
  ⟨by decide, by decide,
    (pipeline_decode_all_or_nothing nanosCodec [waitRecord, trafficRecord]).1⟩

end config

namespace model

/-! ## Updating the static user -/

/-- C15: after `Update(username, password)` the username is the given one when
it is non-empty and unchanged when it is empty; the password hash is unchanged
when the password is empty, and is the hash bcrypt produced for the password when
the password is non-empty and hashing succeeds (nil is returned then); with both
arguments empty the user is unchanged and nil is returned. When hashing fails its
error is returned and the password hash is unchanged. -/
theorem StaticUser_Update (bcryptGenerate : GoString → Except Error GoString)
    (p : ProjectStaticUser) (username password : GoString) :
    (username ≠ [] → (p.Update bcryptGenerate username password).1.Username = username)
    ∧ (username = [] → (p.Update bcryptGenerate username password).1.Username = p.Username)
    ∧ (password = [] →
        (p.Update bcryptGenerate username password).1.PasswordHash = p.PasswordHash
        ∧ (p.Update bcryptGenerate username password).2 = none)
    ∧ (∀ encoded, password ≠ [] → bcryptGenerate password = .ok encoded →
        (p.Update bcryptGenerate username password).1.PasswordHash = encoded
        ∧ (p.Update bcryptGenerate username password).2 = none)
    ∧ (∀ err, password ≠ [] → bcryptGenerate password = .error err →
        (p.Update bcryptGenerate username password).1.PasswordHash = p.PasswordHash
        ∧ (p.Update bcryptGenerate username password).2 = some err)
    ∧ (username = [] → password = [] → p.Update bcryptGenerate username password = (p, none)) := by
  unfold ProjectStaticUser.Update
  by_cases hu : username = [] <;> by_cases hp : password = []
  · simp [hu, hp]
  · cases hb : bcryptGenerate password <;> simp [hu, hp, hb]
  · simp [hu, hp]
  · cases hb : bcryptGenerate password <;> simp [hu, hp, hb]

/-- C15 at the user ("admin", "old-hash") updated with the username "root" and the
password "pw", for a bcrypt that returns the hash "new-hash"; and with both
arguments empty. -/
theorem StaticUser_Update_witness :
    ProjectStaticUser.Update (fun _ => .ok (lit "new-hash"))
        { Username := lit "admin", PasswordHash := lit "old-hash" } (lit "root") (lit "pw")
      = ({ Username := lit "root", PasswordHash := lit "new-hash" }, none)
    ∧ ProjectStaticUser.Update (fun _ => .ok (lit "new-hash"))
        { Username := lit "admin", PasswordHash := lit "old-hash" } [] []
      = ({ Username := lit "admin", PasswordHash := lit "old-hash" }, none)
    ∧ (([] : GoString) = [] → ([] : GoString) = [] →
        ProjectStaticUser.Update (fun _ => .ok (lit "new-hash"))
            { Username := lit "admin", PasswordHash := lit "old-hash" } [] []
          = ({ Username := lit "admin", PasswordHash := lit "old-hash" }, none)) :=
  ⟨by decide, by decide,
    (StaticUser_Update (fun _ => .ok (lit "new-hash"))
      { Username := lit "admin", PasswordHash := lit "old-hash" } [] []).2.2.2.2.2⟩

end model

namespace config

/-! ## Encoding to the generic record form and decoding again -/

theorem fitsInt_zero : fitsInt 0 := by unfold fitsInt; omega

theorem decodeInt_num (n : Int) (cur : Int) (h : fitsInt n) :
    decodeInt (.num n) cur = ⟨n, none, none⟩ := by
  simp only [decodeInt]
  exact if_pos h

theorem decodeInt_fits (j : Json) (cur : Int) (h : fitsInt cur) :
    fitsInt (decodeInt j cur).val := by
  cases j <;> simp only [decodeInt] <;> try exact h
  split_ifs with hn
  · exact hn
  · exact h

/-- Decoding the encoding of a slice into a nil slice gives the slice back, when
each element's encoding decodes to the element. -/
theorem decodeElems_map {α : Type} (zero : α) (elem : Json → α → Dec α) (enc : α → Json)
    (l : List α) (h : ∀ x ∈ l, elem (enc x) zero = ⟨x, none, none⟩) :
    decodeElems zero elem (l.map enc) [] = ⟨l, none, none⟩ := by
  induction l with
  | nil => rfl
  | cons x xs ih =>
    have hx := h x (List.mem_cons_self _ _)
    have hxs := ih (fun y hy => h y (List.mem_cons_of_mem _ hy))
    simp [decodeElems, hx, hxs]

theorem decodeSlice_marshalSlice {α : Type} (goType : String) (zero : α)
    (elem : Json → α → Dec α) (enc : α → Json) (l : Slice α)
    (h : ∀ x ∈ l.getD [], elem (enc x) zero = ⟨x, none, none⟩) :
    decodeSlice goType zero elem (marshalSlice enc l) none = ⟨l, none, none⟩ := by
  cases l with
  | none => rfl
  | some xs =>
    simp only [marshalSlice, decodeSlice, Option.getD_none]
    rw [decodeElems_map zero elem enc xs (by simpa using h)]
    rfl

theorem decodeSlice_marshalStrings (goType : String) (l : Slice String) :
    decodeSlice goType "" decodeString (marshalStrings l) none = ⟨l, none, none⟩ := by
  have : marshalStrings l = marshalSlice Json.str l := by cases l <;> rfl
  rw [this]
  exact decodeSlice_marshalSlice goType "" decodeString Json.str l (fun x _ => rfl)

/-! ### Each option record decodes back from its encoding -/

theorem Wait_redecode (dc : DurationCodec) (o : WaitStageOptions)
    (hd : dc.unmarshal (dc.marshal o.Duration) 0 = ⟨o.Duration, none, none⟩) :
    decodeStruct "config.WaitStageOptions" (WaitStageOptions.field dc) (o.marshal dc) {}
      = ⟨o, none, none⟩ := by
  simp +decide [WaitStageOptions.marshal, decodeStruct, Dec.step, WaitStageOptions.field, hd,
    Dec.map]

theorem WaitApproval_redecode (o : WaitApprovalStageOptions) :
    decodeStruct "config.WaitApprovalStageOptions" WaitApprovalStageOptions.field o.marshal {}
      = ⟨o, none, none⟩ := by
  simp +decide [WaitApprovalStageOptions.marshal, decodeStruct, Dec.step,
    WaitApprovalStageOptions.field, decodeSlice_marshalStrings, Dec.map]

theorem K8sPrimaryOut_redecode (o : K8sPrimaryOutStageOptions) :
    decodeStruct "config.K8sPrimaryOutStageOptions" K8sPrimaryOutStageOptions.field
      o.marshal {} = ⟨o, none, none⟩ := by
  simp +decide [K8sPrimaryOutStageOptions.marshal, decodeStruct, Dec.step,
    K8sPrimaryOutStageOptions.field, decodeSlice_marshalStrings, Dec.map]

theorem K8sStageOut_redecode (o : K8sStageOutStageOptions) (hw : fitsInt o.Weight) :
    decodeStruct "config.K8sStageOutStageOptions" K8sStageOutStageOptions.field
      o.marshal {} = ⟨o, none, none⟩ := by
  simp +decide [K8sStageOutStageOptions.marshal, decodeStruct, Dec.step,
    K8sStageOutStageOptions.field, decodeInt_num _ _ hw, decodeString, decodeBool, Dec.map]

theorem K8sBaselineOut_redecode (o : K8sBaselineOutStageOptions) (hw : fitsInt o.Weight) :
    decodeStruct "config.K8sBaselineOutStageOptions" K8sBaselineOutStageOptions.field
      o.marshal {} = ⟨o, none, none⟩ := by
  simp +decide [K8sBaselineOutStageOptions.marshal, decodeStruct, Dec.step,
    K8sBaselineOutStageOptions.field, decodeInt_num _ _ hw, decodeString, decodeBool, Dec.map]

theorem K8sTrafficRoute_redecode (o : K8sTrafficRouteStageOptions) (hp : fitsInt o.Primary)
    (hs : fitsInt o.Stage) (hb : fitsInt o.Baseline) :
    decodeStruct "config.K8sTrafficRouteStageOptions" K8sTrafficRouteStageOptions.field
      o.marshal {} = ⟨o, none, none⟩ := by
  by_cases ht : o.Target = ""
  · obtain ⟨t, p, st, b⟩ := o
    simp only at ht
    subst ht
    simp +decide [K8sTrafficRouteStageOptions.marshal, decodeStruct, Dec.step,
      K8sTrafficRouteStageOptions.field, decodeInt_num _ _ hp, decodeInt_num _ _ hs,
      decodeInt_num _ _ hb, decodeString, Dec.map]
  · simp +decide [K8sTrafficRouteStageOptions.marshal, ht, decodeStruct, Dec.step,
      K8sTrafficRouteStageOptions.field, decodeInt_num _ _ hp, decodeInt_num _ _ hs,
      decodeInt_num _ _ hb, decodeString, Dec.map]

theorem AnalysisMetrics_redecode (dc : DurationCodec) (m : AnalysisMetrics)
    (hi : dc.unmarshal (dc.marshal m.Interval) 0 = ⟨m.Interval, none, none⟩)
    (ht : dc.unmarshal (dc.marshal m.Timeout) 0 = ⟨m.Timeout, none, none⟩) :
    decodeStruct "config.AnalysisMetrics" (AnalysisMetrics.field dc) (m.marshal dc) {}
      = ⟨m, none, none⟩ := by
  simp +decide [AnalysisMetrics.marshal, decodeStruct, Dec.step, AnalysisMetrics.field, hi, ht,
    decodeString, Dec.map]

theorem AnalysisLog_redecode (l : AnalysisLog) (ht : fitsInt l.Threshold) :
    decodeStruct "config.AnalysisLog" AnalysisLog.field l.marshal {} = ⟨l, none, none⟩ := by
  simp +decide [AnalysisLog.marshal, decodeStruct, Dec.step, AnalysisLog.field,
    decodeInt_num _ _ ht, decodeString, Dec.map]

theorem AnalysisHTTP_redecode (dc : DurationCodec) (h : AnalysisHTTP)
    (hi : dc.unmarshal (dc.marshal h.Interval) 0 = ⟨h.Interval, none, none⟩)
    (ht : dc.unmarshal (dc.marshal h.Timeout) 0 = ⟨h.Timeout, none, none⟩) :
    decodeStruct "config.AnalysisHTTP" (AnalysisHTTP.field dc) (h.marshal dc) {}
      = ⟨h, none, none⟩ := by
  simp +decide [AnalysisHTTP.marshal, decodeStruct, Dec.step, AnalysisHTTP.field, hi, ht,
    decodeString, decodeSlice_marshalStrings, Dec.map]

theorem Analysis_redecode (dc : DurationCodec) (o : AnalysisStageOptions)
    (hd : ∀ d ∈ o.durations, dc.unmarshal (dc.marshal d) 0 = ⟨d, none, none⟩)
    (ht : fitsInt o.Threshold) (hr : fitsInt o.RestartThreshold)
    (hl : ∀ l ∈ o.Logs.getD [], fitsInt l.Threshold) :
    decodeStruct "config.AnalysisStageOptions" (AnalysisStageOptions.field dc) (o.marshal dc) {}
      = ⟨o, none, none⟩ := by
  have h0 := hd o.Duration (List.mem_cons_self _ _)
  have hm : decodeSlice "[]config.AnalysisMetrics" {}
      (decodeStruct "config.AnalysisMetrics" (AnalysisMetrics.field dc))
      (marshalSlice (AnalysisMetrics.marshal dc) o.Metrics) none = ⟨o.Metrics, none, none⟩ := by
    apply decodeSlice_marshalSlice
    intro m hmem
    apply AnalysisMetrics_redecode <;> apply hd <;>
      simp only [AnalysisStageOptions.durations, List.mem_cons, List.mem_append,
        List.mem_flatMap]
    · exact Or.inr (Or.inl ⟨m, hmem, by simp⟩)
    · exact Or.inr (Or.inl ⟨m, hmem, by simp⟩)
  have hlg : decodeSlice "[]config.AnalysisLog" {}
      (decodeStruct "config.AnalysisLog" AnalysisLog.field)
      (marshalSlice AnalysisLog.marshal o.Logs) none = ⟨o.Logs, none, none⟩ := by
    apply decodeSlice_marshalSlice
    intro l hmem
    exact AnalysisLog_redecode l (hl l hmem)
  have hh : decodeSlice "[]config.AnalysisHTTP" {}
      (decodeStruct "config.AnalysisHTTP" (AnalysisHTTP.field dc))
      (marshalSlice (AnalysisHTTP.marshal dc) o.Https) none = ⟨o.Https, none, none⟩ := by
    apply decodeSlice_marshalSlice
    intro h hmem
    apply AnalysisHTTP_redecode <;> apply hd <;>
      simp only [AnalysisStageOptions.durations, List.mem_cons, List.mem_append,
        List.mem_flatMap]
    · exact Or.inr (Or.inr ⟨h, hmem, by simp⟩)
    · exact Or.inr (Or.inr ⟨h, hmem, by simp⟩)
  simp +decide [AnalysisStageOptions.marshal, decodeStruct, Dec.step, AnalysisStageOptions.field,
    h0, hm, hlg, hh, decodeInt_num _ _ ht, decodeInt_num _ _ hr, Dec.map]

/-! ### The integers of a decoded option record fit a Go `int` -/

/-- A property of the Go value that every member's decoding preserves holds
after any JSON value is decoded into the struct. -/
theorem decodeStruct_invariant {α : Type} (P : α → Prop) (goType : String)
    (field : String → Json → α → Dec α) (j : Json) (cur : α) (h0 : P cur)
    (hstep : ∀ key v a, P a → P (field key v a).val) :
    P (decodeStruct goType field j cur).val := by
  cases j with
  | obj members =>
    exact decodeStruct_obj_invariant P goType field members cur h0
      (fun m _ a ha => hstep m.1 m.2 a ha)
  | _ => simpa [decodeStruct] using h0

theorem headD_of_forall {α : Type} (Q : α → Prop) (zero : α) (old : List α) (hz : Q zero)
    (hold : ∀ x ∈ old, Q x) : Q (old.headD zero) := by
  cases old with
  | nil => exact hz
  | cons x xs => exact hold x (List.mem_cons_self _ _)

/-- A property of the elements that the element decoder preserves holds of every
element after an array is decoded into the slice. -/
theorem decodeElems_forall {α : Type} (Q : α → Prop) (zero : α) (elem : Json → α → Dec α)
    (hz : Q zero) (helem : ∀ j a, Q a → Q (elem j a).val) (js : List Json) (old : List α)
    (hold : ∀ x ∈ old, Q x) :
    ∀ x ∈ (decodeElems zero elem js old).val, Q x := by
  induction js generalizing old with
  | nil => intro x hx; simp [decodeElems] at hx
  | cons j js ih =>
    have hhead : Q (elem j (old.headD zero)).val :=
      helem j _ (headD_of_forall Q zero old hz hold)
    have htail : ∀ x ∈ old.tail, Q x := fun x hx => hold x (List.mem_of_mem_tail hx)
    intro x hx
    simp only [decodeElems] at hx
    cases hf : (elem j (old.headD zero)).fatal with
    | some e =>
      simp only [hf, List.mem_cons] at hx
      rcases hx with rfl | hx
      · exact hhead
      · exact htail x hx
    | none =>
      simp only [hf, List.mem_cons] at hx
      rcases hx with rfl | hx
      · exact hhead
      · exact ih old.tail htail x hx

theorem decodeSlice_forall {α : Type} (Q : α → Prop) (goType : String) (zero : α)
    (elem : Json → α → Dec α) (hz : Q zero) (helem : ∀ j a, Q a → Q (elem j a).val)
    (v : Json) (cur : Slice α) (hcur : ∀ x ∈ cur.getD [], Q x) :
    ∀ x ∈ (decodeSlice goType zero elem v cur).val.getD [], Q x := by
  cases v with
  | null => intro x hx; simp [decodeSlice] at hx
  | arr items =>
    simpa [decodeSlice, Dec.map] using decodeElems_forall Q zero elem hz helem items _ hcur
  | _ => simpa [decodeSlice] using hcur

theorem K8sStageOut_field_fits (key : String) (v : Json) (a : K8sStageOutStageOptions)
    (h : fitsInt a.Weight) : fitsInt (K8sStageOutStageOptions.field key v a).val.Weight := by
  unfold K8sStageOutStageOptions.field
  split_ifs <;> simp only [Dec.map, Dec.skip] <;> first | exact decodeInt_fits _ _ h | exact h

theorem K8sBaselineOut_field_fits (key : String) (v : Json) (a : K8sBaselineOutStageOptions)
    (h : fitsInt a.Weight) : fitsInt (K8sBaselineOutStageOptions.field key v a).val.Weight := by
  unfold K8sBaselineOutStageOptions.field
  split_ifs <;> simp only [Dec.map, Dec.skip] <;> first | exact decodeInt_fits _ _ h | exact h

theorem K8sTrafficRoute_field_fits (key : String) (v : Json) (a : K8sTrafficRouteStageOptions)
    (h : fitsInt a.Primary ∧ fitsInt a.Stage ∧ fitsInt a.Baseline) :
    fitsInt (K8sTrafficRouteStageOptions.field key v a).val.Primary
    ∧ fitsInt (K8sTrafficRouteStageOptions.field key v a).val.Stage
    ∧ fitsInt (K8sTrafficRouteStageOptions.field key v a).val.Baseline := by
  obtain ⟨h1, h2, h3⟩ := h
  unfold K8sTrafficRouteStageOptions.field
  split_ifs <;> simp only [Dec.map, Dec.skip] <;>
    first
    | exact ⟨decodeInt_fits _ _ h1, h2, h3⟩
    | exact ⟨h1, decodeInt_fits _ _ h2, h3⟩
    | exact ⟨h1, h2, decodeInt_fits _ _ h3⟩
    | exact ⟨h1, h2, h3⟩

theorem AnalysisLog_field_fits (key : String) (v : Json) (a : AnalysisLog)
    (h : fitsInt a.Threshold) : fitsInt (AnalysisLog.field key v a).val.Threshold := by
  unfold AnalysisLog.field
  split_ifs <;> simp only [Dec.map, Dec.skip] <;> first | exact decodeInt_fits _ _ h | exact h

theorem Analysis_field_fits (dc : DurationCodec) (key : String) (v : Json)
    (a : AnalysisStageOptions)
    (h : fitsInt a.Threshold ∧ fitsInt a.RestartThreshold
      ∧ ∀ l ∈ a.Logs.getD [], fitsInt l.Threshold) :
    fitsInt (AnalysisStageOptions.field dc key v a).val.Threshold
    ∧ fitsInt (AnalysisStageOptions.field dc key v a).val.RestartThreshold
    ∧ ∀ l ∈ (AnalysisStageOptions.field dc key v a).val.Logs.getD [], fitsInt l.Threshold := by
  obtain ⟨h1, h2, h3⟩ := h
  have hlogs := decodeSlice_forall (fun l : AnalysisLog => fitsInt l.Threshold)
    "[]config.AnalysisLog" {} (decodeStruct "config.AnalysisLog" AnalysisLog.field) fitsInt_zero
    (fun j a ha => decodeStruct_invariant (fun l : AnalysisLog => fitsInt l.Threshold) _ _ j a ha
      (fun key v a ha => AnalysisLog_field_fits key v a ha)) v a.Logs h3
  unfold AnalysisStageOptions.field
  split_ifs <;> simp only [Dec.map, Dec.skip] <;>
    first
    | exact ⟨decodeInt_fits _ _ h1, h2, h3⟩
    | exact ⟨h1, decodeInt_fits _ _ h2, h3⟩
    | exact ⟨h1, h2, hlogs⟩
    | exact ⟨h1, h2, h3⟩

/-! ### Decoding the generic record form -/

/-- The generic record with a payload decodes back from its encoding as the outer
record. -/
theorem decodeGeneric_marshal (dc : DurationCodec) (name desc : String) (timeout : Duration)
    (w : Json) (ht : dc.unmarshal (dc.marshal timeout) 0 = ⟨timeout, none, none⟩) :
    decodeGeneric dc (genericPipelineStage.marshal dc
        { Name := name, Desc := desc, Timeout := timeout, With := some w })
      = ({ Name := name, Desc := desc, Timeout := timeout, With := some w }, none) := by
  by_cases hd : desc = ""
  · subst hd
    simp +decide [decodeGeneric, jsonUnmarshal, genericPipelineStage.marshal, decodeStruct,
      Dec.step, genericPipelineStage.field, ht, decodeString, Dec.map, Dec.err]
  · simp +decide [decodeGeneric, jsonUnmarshal, genericPipelineStage.marshal, hd, decodeStruct,
      Dec.step, genericPipelineStage.field, ht, decodeString, Dec.map, Dec.err]

theorem redecode_Wait (dc : DurationCodec) (desc : String) (timeout : Duration)
    (o : WaitStageOptions)
    (ht : dc.unmarshal (dc.marshal timeout) 0 = ⟨timeout, none, none⟩)
    (hd : dc.unmarshal (dc.marshal o.Duration) 0 = ⟨o.Duration, none, none⟩) :
    PipelineStage.UnmarshalJSON dc {} (PipelineStage.encodeGeneric dc
        { Name := StageWait, Desc := desc, Timeout := timeout, WaitStageOptions := some o })
      = ({ Name := StageWait, Desc := desc, Timeout := timeout, WaitStageOptions := some o },
          none) := by
  simp +decide [PipelineStage.encodeGeneric, PipelineStage.payload, PipelineStage.UnmarshalJSON,
    decodeGeneric_marshal dc _ _ _ _ ht, unmarshalWith, jsonUnmarshal, Wait_redecode dc o hd,
    Dec.err, StageWait]

theorem K8sStageIn_redecode (o : K8sStageInStageOptions) :
    decodeStruct "config.K8sStageInStageOptions" K8sStageInStageOptions.field o.marshal {}
      = ⟨o, none, none⟩ := by
  cases o; rfl

theorem K8sBaselineIn_redecode (o : K8sBaselineInStageOptions) :
    decodeStruct "config.K8sBaselineInStageOptions" K8sBaselineInStageOptions.field
      o.marshal {} = ⟨o, none, none⟩ := by
  cases o; rfl

theorem TerraformPlan_redecode (o : TerraformPlanStageOptions) :
    decodeStruct "config.TerraformPlanStageOptions" TerraformPlanStageOptions.field
      o.marshal {} = ⟨o, none, none⟩ := by
  cases o; rfl

theorem TerraformApply_redecode (o : TerraformApplyStageOptions) :
    decodeStruct "config.TerraformApplyStageOptions" TerraformApplyStageOptions.field
      o.marshal {} = ⟨o, none, none⟩ := by
  cases o; rfl

theorem redecode_WaitApproval (dc : DurationCodec) (desc : String) (timeout : Duration)
    (o : WaitApprovalStageOptions)
    (ht : dc.unmarshal (dc.marshal timeout) 0 = ⟨timeout, none, none⟩) :
    PipelineStage.UnmarshalJSON dc {} (PipelineStage.encodeGeneric dc
        { Name := StageWaitApproval, Desc := desc, Timeout := timeout, WaitApprovalStageOptions := some o })
      = ({ Name := StageWaitApproval, Desc := desc, Timeout := timeout, WaitApprovalStageOptions := some o },
          none) := by
  simp +decide [PipelineStage.encodeGeneric, PipelineStage.payload, PipelineStage.UnmarshalJSON,
    decodeGeneric_marshal dc _ _ _ _ ht, unmarshalWith, jsonUnmarshal, WaitApproval_redecode o,
    Dec.err, StageWait, StageWaitApproval, StageAnalysis, StageK8sPrimaryOut, StageK8sStageOut,
    StageK8sStageIn, StageK8sBaselineOut, StageK8sBaselineIn, StageK8sTrafficRoute,
    StageTerraformPlan, StageTerraformApply]

theorem redecode_Analysis (dc : DurationCodec) (desc : String) (timeout : Duration)
    (o : AnalysisStageOptions)
    (ht : dc.unmarshal (dc.marshal timeout) 0 = ⟨timeout, none, none⟩)
    (hd : ∀ d ∈ o.durations, dc.unmarshal (dc.marshal d) 0 = ⟨d, none, none⟩)
    (hth : fitsInt o.Threshold)
    (hr : fitsInt o.RestartThreshold)
    (hl : ∀ l ∈ o.Logs.getD [], fitsInt l.Threshold) :
    PipelineStage.UnmarshalJSON dc {} (PipelineStage.encodeGeneric dc
        { Name := StageAnalysis, Desc := desc, Timeout := timeout, AnalysisStageOptions := some o })
      = ({ Name := StageAnalysis, Desc := desc, Timeout := timeout, AnalysisStageOptions := some o },
          none) := by
  simp +decide [PipelineStage.encodeGeneric, PipelineStage.payload, PipelineStage.UnmarshalJSON,
    decodeGeneric_marshal dc _ _ _ _ ht, unmarshalWith, jsonUnmarshal, Analysis_redecode dc o hd hth hr hl,
    Dec.err, StageWait, StageWaitApproval, StageAnalysis, StageK8sPrimaryOut, StageK8sStageOut,
    StageK8sStageIn, StageK8sBaselineOut, StageK8sBaselineIn, StageK8sTrafficRoute,
    StageTerraformPlan, StageTerraformApply]

theorem redecode_K8sPrimaryOut (dc : DurationCodec) (desc : String) (timeout : Duration)
    (o : K8sPrimaryOutStageOptions)
    (ht : dc.unmarshal (dc.marshal timeout) 0 = ⟨timeout, none, none⟩) :
    PipelineStage.UnmarshalJSON dc {} (PipelineStage.encodeGeneric dc
        { Name := StageK8sPrimaryOut, Desc := desc, Timeout := timeout, K8sPrimaryOutStageOptions := some o })
      = ({ Name := StageK8sPrimaryOut, Desc := desc, Timeout := timeout, K8sPrimaryOutStageOptions := some o },
          none) := by
  simp +decide [PipelineStage.encodeGeneric, PipelineStage.payload, PipelineStage.UnmarshalJSON,
    decodeGeneric_marshal dc _ _ _ _ ht, unmarshalWith, jsonUnmarshal, K8sPrimaryOut_redecode o,
    Dec.err, StageWait, StageWaitApproval, StageAnalysis, StageK8sPrimaryOut, StageK8sStageOut,
    StageK8sStageIn, StageK8sBaselineOut, StageK8sBaselineIn, StageK8sTrafficRoute,
    StageTerraformPlan, StageTerraformApply]

theorem redecode_K8sStageOut (dc : DurationCodec) (desc : String) (timeout : Duration)
    (o : K8sStageOutStageOptions)
    (ht : dc.unmarshal (dc.marshal timeout) 0 = ⟨timeout, none, none⟩)
    (hw : fitsInt o.Weight) :
    PipelineStage.UnmarshalJSON dc {} (PipelineStage.encodeGeneric dc
        { Name := StageK8sStageOut, Desc := desc, Timeout := timeout, K8sStageOutStageOptions := some o })
      = ({ Name := StageK8sStageOut, Desc := desc, Timeout := timeout, K8sStageOutStageOptions := some o },
          none) := by
  simp +decide [PipelineStage.encodeGeneric, PipelineStage.payload, PipelineStage.UnmarshalJSON,
    decodeGeneric_marshal dc _ _ _ _ ht, unmarshalWith, jsonUnmarshal, K8sStageOut_redecode o hw,
    Dec.err, StageWait, StageWaitApproval, StageAnalysis, StageK8sPrimaryOut, StageK8sStageOut,
    StageK8sStageIn, StageK8sBaselineOut, StageK8sBaselineIn, StageK8sTrafficRoute,
    StageTerraformPlan, StageTerraformApply]

theorem redecode_K8sStageIn (dc : DurationCodec) (desc : String) (timeout : Duration)
    (o : K8sStageInStageOptions)
    (ht : dc.unmarshal (dc.marshal timeout) 0 = ⟨timeout, none, none⟩) :
    PipelineStage.UnmarshalJSON dc {} (PipelineStage.encodeGeneric dc
        { Name := StageK8sStageIn, Desc := desc, Timeout := timeout, K8sStageInStageOptions := some o })
      = ({ Name := StageK8sStageIn, Desc := desc, Timeout := timeout, K8sStageInStageOptions := some o },
          none) := by
  simp +decide [PipelineStage.encodeGeneric, PipelineStage.payload, PipelineStage.UnmarshalJSON,
    decodeGeneric_marshal dc _ _ _ _ ht, unmarshalWith, jsonUnmarshal, K8sStageIn_redecode o,
    Dec.err, StageWait, StageWaitApproval, StageAnalysis, StageK8sPrimaryOut, StageK8sStageOut,
    StageK8sStageIn, StageK8sBaselineOut, StageK8sBaselineIn, StageK8sTrafficRoute,
    StageTerraformPlan, StageTerraformApply]

theorem redecode_K8sBaselineOut (dc : DurationCodec) (desc : String) (timeout : Duration)
    (o : K8sBaselineOutStageOptions)
    (ht : dc.unmarshal (dc.marshal timeout) 0 = ⟨timeout, none, none⟩)
    (hw : fitsInt o.Weight) :
    PipelineStage.UnmarshalJSON dc {} (PipelineStage.encodeGeneric dc
        { Name := StageK8sBaselineOut, Desc := desc, Timeout := timeout, K8sBaselineOutStageOptions := some o })
      = ({ Name := StageK8sBaselineOut, Desc := desc, Timeout := timeout, K8sBaselineOutStageOptions := some o },
          none) := by
  simp +decide [PipelineStage.encodeGeneric, PipelineStage.payload, PipelineStage.UnmarshalJSON,
    decodeGeneric_marshal dc _ _ _ _ ht, unmarshalWith, jsonUnmarshal, K8sBaselineOut_redecode o hw,
    Dec.err, StageWait, StageWaitApproval, StageAnalysis, StageK8sPrimaryOut, StageK8sStageOut,
    StageK8sStageIn, StageK8sBaselineOut, StageK8sBaselineIn, StageK8sTrafficRoute,
    StageTerraformPlan, StageTerraformApply]

theorem redecode_K8sBaselineIn (dc : DurationCodec) (desc : String) (timeout : Duration)
    (o : K8sBaselineInStageOptions)
    (ht : dc.unmarshal (dc.marshal timeout) 0 = ⟨timeout, none, none⟩) :
    PipelineStage.UnmarshalJSON dc {} (PipelineStage.encodeGeneric dc
        { Name := StageK8sBaselineIn, Desc := desc, Timeout := timeout, K8sBaselineInStageOptions := some o })
      = ({ Name := StageK8sBaselineIn, Desc := desc, Timeout := timeout, K8sBaselineInStageOptions := some o },
          none) := by
  simp +decide [PipelineStage.encodeGeneric, PipelineStage.payload, PipelineStage.UnmarshalJSON,
    decodeGeneric_marshal dc _ _ _ _ ht, unmarshalWith, jsonUnmarshal, K8sBaselineIn_redecode o,
    Dec.err, StageWait, StageWaitApproval, StageAnalysis, StageK8sPrimaryOut, StageK8sStageOut,
    StageK8sStageIn, StageK8sBaselineOut, StageK8sBaselineIn, StageK8sTrafficRoute,
    StageTerraformPlan, StageTerraformApply]

theorem redecode_K8sTrafficRoute (dc : DurationCodec) (desc : String) (timeout : Duration)
    (o : K8sTrafficRouteStageOptions)
    (ht : dc.unmarshal (dc.marshal timeout) 0 = ⟨timeout, none, none⟩)
    (hp : fitsInt o.Primary)
    (hs : fitsInt o.Stage)
    (hb : fitsInt o.Baseline) :
    PipelineStage.UnmarshalJSON dc {} (PipelineStage.encodeGeneric dc
        { Name := StageK8sTrafficRoute, Desc := desc, Timeout := timeout, K8sTrafficRouteStageOptions := some o })
      = ({ Name := StageK8sTrafficRoute, Desc := desc, Timeout := timeout, K8sTrafficRouteStageOptions := some o },
          none) := by
  simp +decide [PipelineStage.encodeGeneric, PipelineStage.payload, PipelineStage.UnmarshalJSON,
    decodeGeneric_marshal dc _ _ _ _ ht, unmarshalWith, jsonUnmarshal, K8sTrafficRoute_redecode o hp hs hb,
    Dec.err, StageWait, StageWaitApproval, StageAnalysis, StageK8sPrimaryOut, StageK8sStageOut,
    StageK8sStageIn, StageK8sBaselineOut, StageK8sBaselineIn, StageK8sTrafficRoute,
    StageTerraformPlan, StageTerraformApply]

theorem redecode_TerraformPlan (dc : DurationCodec) (desc : String) (timeout : Duration)
    (o : TerraformPlanStageOptions)
    (ht : dc.unmarshal (dc.marshal timeout) 0 = ⟨timeout, none, none⟩) :
    PipelineStage.UnmarshalJSON dc {} (PipelineStage.encodeGeneric dc
        { Name := StageTerraformPlan, Desc := desc, Timeout := timeout, TerraformPlanStageOptions := some o })
      = ({ Name := StageTerraformPlan, Desc := desc, Timeout := timeout, TerraformPlanStageOptions := some o },
          none) := by
  simp +decide [PipelineStage.encodeGeneric, PipelineStage.payload, PipelineStage.UnmarshalJSON,
    decodeGeneric_marshal dc _ _ _ _ ht, unmarshalWith, jsonUnmarshal, TerraformPlan_redecode o,
    Dec.err, StageWait, StageWaitApproval, StageAnalysis, StageK8sPrimaryOut, StageK8sStageOut,
    StageK8sStageIn, StageK8sBaselineOut, StageK8sBaselineIn, StageK8sTrafficRoute,
    StageTerraformPlan, StageTerraformApply]

theorem redecode_TerraformApply (dc : DurationCodec) (desc : String) (timeout : Duration)
    (o : TerraformApplyStageOptions)
    (ht : dc.unmarshal (dc.marshal timeout) 0 = ⟨timeout, none, none⟩) :
    PipelineStage.UnmarshalJSON dc {} (PipelineStage.encodeGeneric dc
        { Name := StageTerraformApply, Desc := desc, Timeout := timeout, TerraformApplyStageOptions := some o })
      = ({ Name := StageTerraformApply, Desc := desc, Timeout := timeout, TerraformApplyStageOptions := some o },
          none) := by
  simp +decide [PipelineStage.encodeGeneric, PipelineStage.payload, PipelineStage.UnmarshalJSON,
    decodeGeneric_marshal dc _ _ _ _ ht, unmarshalWith, jsonUnmarshal, TerraformApply_redecode o,
    Dec.err, StageWait, StageWaitApproval, StageAnalysis, StageK8sPrimaryOut, StageK8sStageOut,
    StageK8sStageIn, StageK8sBaselineOut, StageK8sBaselineIn, StageK8sTrafficRoute,
    StageTerraformPlan, StageTerraformApply]

/-- C4: round trip. For every `PipelineStage` obtained by successfully decoding
a stage record, encoding it back to the generic record form `{name, desc,
timeout, with}` and decoding the result again succeeds and yields a stage equal
to the original, its populated option record included, given that `Duration`'s
JSON methods read back each duration of the stage as they wrote it. -/
theorem roundtrip_generic_form (dc : DurationCodec) (data : Json) (s1 : PipelineStage)
    (hdec : PipelineStage.UnmarshalJSON dc {} data = (s1, none))
    (hdur : ∀ d ∈ s1.durations, dc.unmarshal (dc.marshal d) 0 = ⟨d, none, none⟩) :
    PipelineStage.UnmarshalJSON dc {} (s1.encodeGeneric dc) = (s1, none) := by
  rcases hg : decodeGeneric dc data with ⟨gs, e⟩
  cases e with
  | some err => simp [PipelineStage.UnmarshalJSON, hg] at hdec
  | none =>
    by_cases hsup : gs.Name ∈ supportedStages
    · rcases supported_cases hsup with h | h | h | h | h | h | h | h | h | h | h
      · simp +decide [PipelineStage.UnmarshalJSON, hg, h, StageWait, StageWaitApproval,
          StageAnalysis, StageK8sPrimaryOut, StageK8sStageOut, StageK8sStageIn,
          StageK8sBaselineOut, StageK8sBaselineIn, StageK8sTrafficRoute, StageTerraformPlan,
          StageTerraformApply] at hdec
        obtain ⟨hs, -⟩ := hdec
        subst hs
        simp [PipelineStage.durations] at hdur
        exact redecode_Wait dc _ _ _ hdur.1 hdur.2
      · simp +decide [PipelineStage.UnmarshalJSON, hg, h, StageWait, StageWaitApproval,
          StageAnalysis, StageK8sPrimaryOut, StageK8sStageOut, StageK8sStageIn,
          StageK8sBaselineOut, StageK8sBaselineIn, StageK8sTrafficRoute, StageTerraformPlan,
          StageTerraformApply] at hdec
        obtain ⟨hs, -⟩ := hdec
        subst hs
        simp [PipelineStage.durations] at hdur
        exact redecode_WaitApproval dc _ _ _ hdur
      · simp +decide [PipelineStage.UnmarshalJSON, hg, h, StageWait, StageWaitApproval,
          StageAnalysis, StageK8sPrimaryOut, StageK8sStageOut, StageK8sStageIn,
          StageK8sBaselineOut, StageK8sBaselineIn, StageK8sTrafficRoute, StageTerraformPlan,
          StageTerraformApply] at hdec
        obtain ⟨hs, -⟩ := hdec
        subst hs
        simp [PipelineStage.durations] at hdur
        have hfit := unmarshalWith_invariant
          (fun a : AnalysisStageOptions => fitsInt a.Threshold ∧ fitsInt a.RestartThreshold
            ∧ ∀ l ∈ a.Logs.getD [], fitsInt l.Threshold)
          "config.AnalysisStageOptions" (AnalysisStageOptions.field dc) gs.With {}
          ⟨fitsInt_zero, fitsInt_zero, by simp⟩
          (fun _ _ m _ a ha => Analysis_field_fits dc m.1 m.2 a ha)
        exact redecode_Analysis dc _ _ _ hdur.1 hdur.2 hfit.1 hfit.2.1 hfit.2.2
      · simp +decide [PipelineStage.UnmarshalJSON, hg, h, StageWait, StageWaitApproval,
          StageAnalysis, StageK8sPrimaryOut, StageK8sStageOut, StageK8sStageIn,
          StageK8sBaselineOut, StageK8sBaselineIn, StageK8sTrafficRoute, StageTerraformPlan,
          StageTerraformApply] at hdec
        obtain ⟨hs, -⟩ := hdec
        subst hs
        simp [PipelineStage.durations] at hdur
        exact redecode_K8sPrimaryOut dc _ _ _ hdur
      · simp +decide [PipelineStage.UnmarshalJSON, hg, h, StageWait, StageWaitApproval,
          StageAnalysis, StageK8sPrimaryOut, StageK8sStageOut, StageK8sStageIn,
          StageK8sBaselineOut, StageK8sBaselineIn, StageK8sTrafficRoute, StageTerraformPlan,
          StageTerraformApply] at hdec
        obtain ⟨hs, -⟩ := hdec
        subst hs
        simp [PipelineStage.durations] at hdur
        exact redecode_K8sStageOut dc _ _ _ hdur
          (unmarshalWith_invariant (fun a : K8sStageOutStageOptions => fitsInt a.Weight)
            "config.K8sStageOutStageOptions" K8sStageOutStageOptions.field gs.With {}
            fitsInt_zero (fun _ _ m _ a ha => K8sStageOut_field_fits m.1 m.2 a ha))
      · simp +decide [PipelineStage.UnmarshalJSON, hg, h, StageWait, StageWaitApproval,
          StageAnalysis, StageK8sPrimaryOut, StageK8sStageOut, StageK8sStageIn,
          StageK8sBaselineOut, StageK8sBaselineIn, StageK8sTrafficRoute, StageTerraformPlan,
          StageTerraformApply] at hdec
        obtain ⟨hs, -⟩ := hdec
        subst hs
        simp [PipelineStage.durations] at hdur
        exact redecode_K8sStageIn dc _ _ _ hdur
      · simp +decide [PipelineStage.UnmarshalJSON, hg, h, StageWait, StageWaitApproval,
          StageAnalysis, StageK8sPrimaryOut, StageK8sStageOut, StageK8sStageIn,
          StageK8sBaselineOut, StageK8sBaselineIn, StageK8sTrafficRoute, StageTerraformPlan,
          StageTerraformApply] at hdec
        obtain ⟨hs, -⟩ := hdec
        subst hs
        simp [PipelineStage.durations] at hdur
        exact redecode_K8sBaselineOut dc _ _ _ hdur
          (unmarshalWith_invariant (fun a : K8sBaselineOutStageOptions => fitsInt a.Weight)
            "config.K8sBaselineOutStageOptions" K8sBaselineOutStageOptions.field gs.With {}
            fitsInt_zero (fun _ _ m _ a ha => K8sBaselineOut_field_fits m.1 m.2 a ha))
      · simp +decide [PipelineStage.UnmarshalJSON, hg, h, StageWait, StageWaitApproval,
          StageAnalysis, StageK8sPrimaryOut, StageK8sStageOut, StageK8sStageIn,
          StageK8sBaselineOut, StageK8sBaselineIn, StageK8sTrafficRoute, StageTerraformPlan,
          StageTerraformApply] at hdec
        obtain ⟨hs, -⟩ := hdec
        subst hs
        simp [PipelineStage.durations] at hdur
        exact redecode_K8sBaselineIn dc _ _ _ hdur
      · simp +decide [PipelineStage.UnmarshalJSON, hg, h, StageWait, StageWaitApproval,
          StageAnalysis, StageK8sPrimaryOut, StageK8sStageOut, StageK8sStageIn,
          StageK8sBaselineOut, StageK8sBaselineIn, StageK8sTrafficRoute, StageTerraformPlan,
          StageTerraformApply] at hdec
        obtain ⟨hs, -⟩ := hdec
        subst hs
        simp [PipelineStage.durations] at hdur
        have hfit := unmarshalWith_invariant
          (fun a : K8sTrafficRouteStageOptions =>
            fitsInt a.Primary ∧ fitsInt a.Stage ∧ fitsInt a.Baseline)
          "config.K8sTrafficRouteStageOptions" K8sTrafficRouteStageOptions.field gs.With {}
          ⟨fitsInt_zero, fitsInt_zero, fitsInt_zero⟩
          (fun _ _ m _ a ha => K8sTrafficRoute_field_fits m.1 m.2 a ha)
        exact redecode_K8sTrafficRoute dc _ _ _ hdur hfit.1 hfit.2.1 hfit.2.2
      · simp +decide [PipelineStage.UnmarshalJSON, hg, h, StageWait, StageWaitApproval,
          StageAnalysis, StageK8sPrimaryOut, StageK8sStageOut, StageK8sStageIn,
          StageK8sBaselineOut, StageK8sBaselineIn, StageK8sTrafficRoute, StageTerraformPlan,
          StageTerraformApply] at hdec
        obtain ⟨hs, -⟩ := hdec
        subst hs
        simp [PipelineStage.durations] at hdur
        exact redecode_TerraformPlan dc _ _ _ hdur
      · simp +decide [PipelineStage.UnmarshalJSON, hg, h, StageWait, StageWaitApproval,
          StageAnalysis, StageK8sPrimaryOut, StageK8sStageOut, StageK8sStageIn,
          StageK8sBaselineOut, StageK8sBaselineIn, StageK8sTrafficRoute, StageTerraformPlan,
          StageTerraformApply] at hdec
        obtain ⟨hs, -⟩ := hdec
        subst hs
        simp [PipelineStage.durations] at hdur
        exact redecode_TerraformApply dc _ _ _ hdur
    · rw [UnmarshalJSON_default_case dc {} data gs hg hsup] at hdec
      simp at hdec

/-- C4 at the WAIT record with duration 5 and at the K8S_TRAFFIC_ROUTE record
with primary 50, stage 30 and baseline 20: the record each stage is encoded to,
and the stage decoded from it, which is the stage itself. -/
theorem roundtrip_generic_form_witness :
    (PipelineStage.UnmarshalJSON nanosCodec {} waitRecord = (waitStage, none)
      ∧ (∀ d ∈ waitStage.durations,
          nanosCodec.unmarshal (nanosCodec.marshal d) 0 = ⟨d, none, none⟩)
      ∧ waitStage.encodeGeneric nanosCodec
          = .obj [("name", .str "WAIT"), ("timeout", .num 0),
              ("with", .obj [("duration", .num 5)])]
      ∧ PipelineStage.UnmarshalJSON nanosCodec {} (waitStage.encodeGeneric nanosCodec)
          = (waitStage, none))
    ∧ (PipelineStage.UnmarshalJSON nanosCodec {} trafficRecord = (trafficStage, none)
      ∧ (∀ d ∈ trafficStage.durations,
          nanosCodec.unmarshal (nanosCodec.marshal d) 0 = ⟨d, none, none⟩)
      ∧ trafficStage.encodeGeneric nanosCodec
          = .obj [("name", .str "K8S_TRAFFIC_ROUTE"), ("timeout", .num 0),
              ("with", .obj [("primary", .num 50), ("stage", .num 30),
                ("baseline", .num 20)])]
      ∧ PipelineStage.UnmarshalJSON nanosCodec {} (trafficStage.encodeGeneric nanosCodec)
          = (trafficStage, none)) :=
  ⟨⟨by decide,
      by intro d hd; simp [PipelineStage.durations, waitStage] at hd
         rcases hd with rfl | rfl <;> rfl,
      rfl,
      roundtrip_generic_form nanosCodec waitRecord waitStage (by decide)
        (by intro d hd; simp [PipelineStage.durations, waitStage] at hd
            rcases hd with rfl | rfl <;> rfl)⟩,
    ⟨by decide,
      by intro d hd; simp [PipelineStage.durations, trafficStage] at hd; subst hd; rfl,
      rfl,
      roundtrip_generic_form nanosCodec trafficRecord trafficStage (by decide)
        (by intro d hd; simp [PipelineStage.durations, trafficStage] at hd; subst hd; rfl)⟩⟩

end config
